import Mathlib

/-!
Verification of the mcp-hub generation pipeline
(`hack/mcp-agent/src/processor/processor.py`,
 `hack/mcp-agent/src/processor/utils.py`,
 `hack/mcp-agent/src/agents/validator.py`).

YAML/JSON-like values are embedded as the inductive `Val`; Python dicts are
ordered association lists with unique keys in practice (insertion via `dset`
mirrors Python assignment: the first occurrence of the key is overwritten in
place, otherwise the pair is appended).  External libraries (PyYAML's dump,
the LLM agents, the build-and-run harness) are modelled either as parameters
(`safeLoad`) or as concrete renderers whose exact text layout is irrelevant
to the claims.  String manipulation is implemented over `List Char` so that
everything evaluates inside the kernel.
-/

/-- YAML/JSON-like values produced and consumed by the pipeline. -/
inductive Val where
  | none
  | bool (b : Bool)
  | int  (n : Int)
  | str  (s : String)
  | list (xs : List Val)
  | dict (kvs : List (String × Val))
deriving Repr

abbrev PyDict := List (String × Val)

mutual
/-- Boolean equality on values (Python `==` for these shapes). -/
def valBeq : Val → Val → Bool
  | .none, .none => true
  | .bool a, .bool b => a == b
  | .int a, .int b => a == b
  | .str a, .str b => a == b
  | .list a, .list b => valListBeq a b
  | .dict a, .dict b => valKVBeq a b
  | _, _ => false

def valListBeq : List Val → List Val → Bool
  | [], [] => true
  | a :: as, b :: bs => valBeq a b && valListBeq as bs
  | _, _ => false

def valKVBeq : List (String × Val) → List (String × Val) → Bool
  | [], [] => true
  | (k, v) :: as, (k', v') :: bs => k == k' && valBeq v v' && valKVBeq as bs
  | _, _ => false
end

/-- First value bound to `k` (Python dict lookup; keys are unique in practice). -/
def dget (d : PyDict) (k : String) : Option Val :=
  match d with
  | [] => Option.none
  | (k', v) :: rest => if k' = k then some v else dget rest k

/-- Python `k in d`. -/
def dhas (d : PyDict) (k : String) : Bool :=
  (dget d k).isSome

/-- Python `d[k] = v`: overwrite the first binding of `k` in place, else append. -/
def dset (d : PyDict) (k : String) (v : Val) : PyDict :=
  match d with
  | [] => [(k, v)]
  | (k', v') :: rest => if k' = k then (k, v) :: rest else (k', v') :: dset rest k v

/-- Python `del d[k]` / `d.pop(k)`: remove the first binding of `k`. -/
def ddel (d : PyDict) (k : String) : PyDict :=
  match d with
  | [] => []
  | (k', v') :: rest => if k' = k then rest else (k', v') :: ddel rest k

/-- Python truthiness of a value (`if not x`). -/
def pyTruthy : Val → Bool
  | .none => false
  | .bool b => b
  | .int n => n != 0
  | .str s => s != ""
  | .list xs => !xs.isEmpty
  | .dict kvs => !kvs.isEmpty

/-- Characters matched by Python's `\s` / stripped by `str.strip()` (ASCII). -/
def pyIsSpace (c : Char) : Bool :=
  c == ' ' || c == '\t' || c == '\n' || c == '\r' || c == '\x0c' || c == '\x0b'

/-- Python `str.strip()`. -/
def pyStrip (s : String) : String :=
  String.mk (((s.data.dropWhile pyIsSpace).reverse.dropWhile pyIsSpace).reverse)

/-- Does the character list start with the given literal? -/
def startsWithChars : List Char → List Char → Bool
  | [], _ => true
  | _ :: _, [] => false
  | p :: ps, c :: cs => p == c && startsWithChars ps cs

/-- Is the needle a contiguous sublist (Python `sub in s`)? -/
def containsChars (needle : List Char) : List Char → Bool
  | [] => needle.isEmpty
  | c :: cs => startsWithChars needle (c :: cs) || containsChars needle cs

/-- Python `sub in s` (substring test). -/
def pyContains (s sub : String) : Bool :=
  containsChars sub.data s.data

/-- Python `s.startswith(p)`. -/
def pyStartsWith (s p : String) : Bool :=
  startsWithChars p.data s.data

/-- Python `s.endswith(p)`. -/
def pyEndsWith (s p : String) : Bool :=
  startsWithChars p.data.reverse s.data.reverse

/-- ASCII lower-casing (Python `str.lower()` for the ASCII texts involved). -/
def lowerChar (c : Char) : Char :=
  if 'A' ≤ c ∧ c ≤ 'Z' then Char.ofNat (c.toNat + 32) else c

/-- ASCII upper-casing (Python `str.upper()`). -/
def upperChar (c : Char) : Char :=
  if 'a' ≤ c ∧ c ≤ 'z' then Char.ofNat (c.toNat - 32) else c

def pyLower (s : String) : String := String.mk (s.data.map lowerChar)

def pyUpper (s : String) : String := String.mk (s.data.map upperChar)

def isAsciiAlpha (c : Char) : Bool :=
  ('a' ≤ c ∧ c ≤ 'z') ∨ ('A' ≤ c ∧ c ≤ 'Z')

def isIdentChar (c : Char) : Bool :=
  isAsciiAlpha c || ('0' ≤ c ∧ c ≤ '9') || c == '_'

/-- Replace every occurrence of one character by another
(Python `s.replace(old, new)` for single characters). -/
def replaceChar (old new : Char) (s : String) : String :=
  String.mk (s.data.map fun c => if c == old then new else c)

/-- Split a character list on a separator character. -/
def splitOnChar (sep : Char) : List Char → List (List Char)
  | [] => [[]]
  | c :: cs =>
      let rest := splitOnChar sep cs
      if c == sep then [] :: rest
      else
        match rest with
        | [] => [[c]]
        | r :: rs => (c :: r) :: rs

/-- Python `s.split('\n')`. -/
def pyLines (s : String) : List String :=
  (splitOnChar '\n' s.data).map String.mk

/-- Split on whitespace runs, dropping empties (Python `str.split()`). -/
def pySplitWs (s : String) : List String :=
  ((s.data.splitOnP pyIsSpace).map String.mk).filter (fun t => t != "")

/-- `String.intercalate` rebuilt over lists so it evaluates in the kernel. -/
def joinWith (sep : String) : List String → String
  | [] => ""
  | [x] => x
  | x :: xs => x ++ sep ++ joinWith sep xs

/-- Python `str.title()` as used on `key.replace("_", " ")`: a cased character
following an uncased one is uppercased, the rest are lowercased. -/
def pyTitleGo : Bool → List Char → List Char
  | _, [] => []
  | prevAlpha, c :: cs =>
      if isAsciiAlpha c then
        (if prevAlpha then lowerChar c else upperChar c) :: pyTitleGo true cs
      else
        c :: pyTitleGo false cs

def pyTitle (s : String) : String := String.mk (pyTitleGo false s.data)

/-- `key.replace("_", " ").title()`, used for generated labels. -/
def labelOf (key : String) : String := pyTitle (replaceChar '_' ' ' key)

mutual
/-- Model of Python `repr` on embedded values (string escaping is not
modelled; the pipeline only stringifies scalars in practice). -/
def reprV : Val → String
  | .none => "None"
  | .bool b => if b then "True" else "False"
  | .int n => toString n
  | .str s => String.singleton '\'' ++ s ++ String.singleton '\''
  | .list xs => "[" ++ reprList xs ++ "]"
  | .dict kvs => "\x7b" ++ reprKVs kvs ++ "\x7d"

def reprList : List Val → String
  | [] => ""
  | [x] => reprV x
  | x :: xs => reprV x ++ ", " ++ reprList xs

def reprKVs : List (String × Val) → String
  | [] => ""
  | [(k, v)] => String.singleton '\'' ++ k ++ "': " ++ reprV v
  | (k, v) :: kvs => String.singleton '\'' ++ k ++ "': " ++ reprV v ++ ", " ++ reprKVs kvs
end

/-- Model of Python `str()` on embedded values. -/
def pyStr : Val → String
  | .str s => s
  | v => reprV v

mutual
/-- Model of `yaml.dump` (rendering details such as key sorting and flow
style are abstracted; no claim depends on the exact text). -/
def yamlDump : Val → String
  | .none => "null"
  | .bool b => if b then "true" else "false"
  | .int n => toString n
  | .str s => s
  | .list xs => "[" ++ yamlDumpList xs ++ "]"
  | .dict kvs => yamlDumpKVs kvs

def yamlDumpList : List Val → String
  | [] => ""
  | [x] => yamlDump x
  | x :: xs => yamlDump x ++ ", " ++ yamlDumpList xs

def yamlDumpKVs : List (String × Val) → String
  | [] => "\x7b\x7d"
  | [(k, v)] => k ++ ": " ++ yamlDump v
  | (k, v) :: kvs => k ++ ": " ++ yamlDump v ++ "\n" ++ yamlDumpKVs kvs
end

example : dget [("a", .int 1), ("b", .int 2)] "b" = some (.int 2) := rfl
example : dset [("a", .int 1)] "a" (.int 3) = [("a", .int 3)] := rfl
example : pyStrip "  ab c \n" = "ab c" := rfl
example : labelOf "api_key" = "Api Key" := rfl
example : pySplitWs " a  bc " = ["a", "bc"] := rfl
example : pyStr (.bool true) = "True" := rfl
example : pyEndsWith (pyUpper "my_token") "_TOKEN" = true := rfl
example : pyContains "hello world" "lo w" = true := rfl
example : pyLines "a\nb\n" = ["a", "b", ""] := rfl
example : yamlDump (.dict [("a", .int 1), ("b", .list [.str "x"])]) = "a: 1\nb: [x]" := rfl

/-!
## `src/processor/utils.py`: `extract_yaml_from_response`

The code-fence search models `re.search(r'```(?:yaml)?\s*(.*?)\s*```', text,
re.DOTALL)`: the leftmost opening triple backtick from which a closing triple
backtick is reachable wins; an optional literal `yaml` marker is skipped, and
the greedy `\s*` before the lazy group plus the `\s*` before the closing fence
strip the surrounding whitespace (followed by `.strip()`, a no-op by then).
-/

def btick : Char := Char.ofNat 96

/-- Does the character list start with three backticks? -/
def isTriple : List Char → Bool
  | c1 :: c2 :: c3 :: _ => c1 == btick && c2 == btick && c3 == btick
  | _ => false

/-- Content up to the first closing triple backtick, if one exists. -/
def upToClose : List Char → Option (List Char)
  | [] => Option.none
  | c :: cs =>
      if isTriple (c :: cs) then some []
      else
        match upToClose cs with
        | some r => some (c :: r)
        | Option.none => Option.none

/-- Skip the optional literal `yaml` language marker after the opening fence. -/
def dropYamlMarker (cs : List Char) : List Char :=
  if startsWithChars ['y', 'a', 'm', 'l'] cs then cs.drop 4 else cs

def stripChars (cs : List Char) : List Char :=
  ((cs.dropWhile pyIsSpace).reverse.dropWhile pyIsSpace).reverse

/-- Leftmost fenced block: at each position, an opening triple backtick whose
remainder (after the marker) still contains a closing triple backtick yields
the stripped enclosed content; otherwise the search moves one character on. -/
def findFence : List Char → Option String
  | [] => Option.none
  | c :: cs =>
      if isTriple (c :: cs) then
        match upToClose (dropYamlMarker ((c :: cs).drop 3)) with
        | some content => some (String.mk (stripChars content))
        | Option.none => findFence cs
      else findFence cs

/-- After an identifier's head character: zero or more identifier characters
followed by a colon (`[a-zA-Z0-9_]*:`). -/
def identColonAfter : List Char → Bool
  | [] => false
  | c :: cs => c == ':' || (isIdentChar c && identColonAfter cs)

/-- `re.match(r'^[a-zA-Z_][a-zA-Z0-9_]*:', line)`. -/
def matchIdentColon (line : String) : Bool :=
  match line.data with
  | [] => false
  | c :: cs => (isAsciiAlpha c || c == '_') && identColonAfter cs

/-- `re.match(r'^\s*-\s+', line)`. -/
def matchDashItem (line : String) : Bool :=
  match line.data.dropWhile pyIsSpace with
  | c :: c2 :: _ => c == '-' && pyIsSpace c2
  | _ => false

/-- Per-line reading of `re.search(r'^\s*[a-zA-Z_][a-zA-Z0-9_]*:', text,
re.MULTILINE)`: some line is leading whitespace, an identifier and a colon. -/
def matchWsIdentColon (line : String) : Bool :=
  match line.data.dropWhile pyIsSpace with
  | [] => false
  | c :: cs => (isAsciiAlpha c || c == '_') && identColonAfter cs

/-- The line-collection loop of `extract_yaml_from_response` (lines 69-86):
section headers and list items open a YAML section, indented or blank lines
continue it, comments are kept, and any other line ends the scan. -/
def collectYaml : List String → Bool → List String
  | [], _ => []
  | l :: ls, inY =>
      if matchIdentColon l || matchDashItem l then l :: collectYaml ls true
      else if inY && (pyStartsWith l "  " || pyStrip l == "") then l :: collectYaml ls true
      else if inY then
        if pyStartsWith l "#" then l :: collectYaml ls true else []
      else collectYaml ls inY

/-- The non-fenced fallbacks of `extract_yaml_from_response` (lines 68-100). -/
def heurExtract (s : String) : String :=
  let yls := collectYaml (pyLines s) false
  if yls != [] then joinWith "\n" yls
  else if (pyLines s).any matchWsIdentColon then s
  else ""

/-- The string path of `extract_yaml_from_response`: fenced block first,
then the line heuristics. -/
def extractFromText (s : String) : String :=
  match findFence s.data with
  | some c => c
  | Option.none => heurExtract s

/-- `extract_yaml_from_response` (utils.py lines 3-100).  Pydantic models do
not occur among embedded values; falsy inputs short-circuit to the empty
string, dicts are dumped (recursing into a string `output` entry), and all
other values are stringified and scanned as text. -/
def extract_yaml_from_response (v : Val) : String :=
  if !pyTruthy v then "" else
  match v with
  | .dict kvs =>
      match dget kvs "output" with
      | some (.str s) => if s == "" then "" else extractFromText s
      | _ => yamlDump (.dict kvs)
  | .str s => extractFromText s
  | other => extractFromText (pyStr other)

example : extractFromText "Here:\n```yaml\nname: test\n```\ndone" = "name: test" := rfl
example : extractFromText "```\na: 1\n```" = "a: 1" := rfl
example : extract_yaml_from_response (.dict [("output", .str "```yaml\nk: v\n```")]) = "k: v" := rfl
example : heurExtract "Some text\nname: foo\n  x: 1\nTrailing" = "name: foo\n  x: 1" := rfl
example : extractFromText "no yaml here at all." = "" := rfl
example : extractFromText "  spaced: ok" = "  spaced: ok" := rfl

/-!
## `src/processor/processor.py`: `run_node` (lines 385-698)

The agent response is either a `RunResponse` pydantic object (embedded as its
`model_dump` dictionary), or an arbitrary value (dict / string / other).
`yaml.safe_load` is a parameter; `Option.none` models a parse exception.
-/

/-- `key.upper().endswith("_KEY") or ... ("_SECRET") or ... ("_TOKEN") or
... ("_PASSWORD")` — the credential-name heuristic. -/
def isSecretKey (key : String) : Bool :=
  pyEndsWith (pyUpper key) "_KEY" || pyEndsWith (pyUpper key) "_SECRET" ||
  pyEndsWith (pyUpper key) "_TOKEN" || pyEndsWith (pyUpper key) "_PASSWORD"

/-- Lines 444-446 / 464-466: a non-string `default` becomes
`str(value).lower()`; string defaults and absent defaults are untouched. -/
def coerceDefault (p : PyDict) : PyDict :=
  match dget p "default" with
  | some (.str _) => p
  | some v => dset p "default" (.str (pyLower (pyStr v)))
  | Option.none => p

/-- Lines 434-446: per-property fixup of `RunResponse.config`. -/
def fixRRConfigProp (p : PyDict) : PyDict :=
  let p := if dhas p "type" then p else dset p "type" (.str "string")
  let p := if dhas p "required" then p else dset p "required" (.bool false)
  coerceDefault p

/-- Lines 450-466: per-property fixup of `RunResponse.env` (same as the
config fixup plus the secret-name inference). -/
def fixRREnvProp (key : String) (p : PyDict) : PyDict :=
  let p := if dhas p "type" then p else dset p "type" (.str "string")
  let p := if dhas p "required" then p else dset p "required" (.bool false)
  let p := if dhas p "secret" then p else dset p "secret" (.bool (isSecretKey key))
  coerceDefault p

/-- Apply a per-property fixup to every dict-valued entry of a map;
non-dict entries are skipped (`if not isinstance(prop, dict): continue`). -/
def fixRRMap (fix : String → PyDict → PyDict) (m : PyDict) : PyDict :=
  m.map fun kv =>
    match kv.2 with
    | .dict p => (kv.1, .dict (fix kv.1 p))
    | v => (kv.1, v)

/-- Lines 469-474: coerce a non-list `entrypoint` — a string is split on
whitespace, anything else becomes the fallback list. -/
def fixRREntrypoint (d : PyDict) : PyDict :=
  match dget d "entrypoint" with
  | some (.list _) => d
  | some (.str s) => dset d "entrypoint" (.list ((pySplitWs s).map Val.str))
  | some _ => dset d "entrypoint" (.list [.str "echo", .str "Invalid entrypoint format"])
  | Option.none => d

/-- Lines 432-474: the `RunResponse` branch of `run_node`.  Iterating
`.items()` of a non-mapping `config`/`env` raises, which the enclosing
`try` turns into the run-failure message. -/
def fixRunResponse (d : PyDict) : Except String PyDict := do
  let d ← match dget d "config" with
    | some (.dict m) => pure (dset d "config" (.dict (fixRRMap (fun _ => fixRRConfigProp) m)))
    | some _ => throw "Run section generation failed: exception"
    | Option.none => pure d
  let d ← match dget d "env" with
    | some (.dict m) => pure (dset d "env" (.dict (fixRRMap fixRREnvProp m)))
    | some _ => throw "Run section generation failed: exception"
    | Option.none => pure d
  pure (fixRREntrypoint d)

/-- Agent response shapes distinguished by `run_node`. -/
inductive AgentResp where
  | runResponse (d : PyDict)
  | val (v : Val)

/-- Extract the value the dict carries under `"run"`, if shaped that way
(lines 481-484, 495-496, 513-514). -/
def unwrapRun (v : Val) : Val :=
  match v with
  | .dict d => match dget d "run" with
      | some r => r
      | Option.none => .dict d
  | _ => v

/-- Lines 413-524: obtain `run_section` from the response. -/
def extractRunSection (safeLoad : String → Option Val) :
    AgentResp → Except String Val
  | .runResponse d => (fixRunResponse d).map Val.dict
  | .val (.dict d) => pure (unwrapRun (.dict d))
  | .val (.str s) =>
      match safeLoad s with
      | Option.none => throw "Failed to parse YAML response: exception"
      | some v => pure (unwrapRun v)
  | .val other =>
      let yc := extract_yaml_from_response other
      if yc != "" then
        match safeLoad yc with
        | Option.none => throw "Failed to parse extracted YAML: exception"
        | some v => pure (unwrapRun v)
      else throw "No YAML could be extracted from response"

/-- Lines 535-544: `normalize_property_dict` — keys exactly equal to
`'Type'`, `'Required'`, `'Default'`, `'Secret'`, `'Label'` are lowercased
while rebuilding the dict; all other keys pass through. -/
def normalizeKey (k : String) : String :=
  if k = "Type" ∨ k = "Required" ∨ k = "Default" ∨ k = "Secret" ∨ k = "Label"
  then pyLower k else k

def normalize_property_dict : Val → Val
  | .dict kvs => .dict (kvs.foldl (fun acc kv => dset acc (normalizeKey kv.1) kv.2) [])
  | v => v

/-- Map a keyed transformation over the values of a map (the in-place
`for key, value in list(m.items()): m[key] = f(key, value)` loops). -/
def mapVals (f : String → Val → Val) (m : PyDict) : PyDict :=
  m.map fun kv => (kv.1, f kv.1 kv.2)

/-- Lines 547-556: normalize the case of property fields inside one of the
`config` / `env` maps, when present and a dict. -/
def normStep (d : PyDict) (k : String) : PyDict :=
  match dget d k with
  | some (.dict m) => dset d k (.dict (mapVals (fun _ v => normalize_property_dict v) m))
  | _ => d

/-- Lines 578-618: coercion of one `config` property in `run_node`.  A dict
already containing `"type"` is left untouched; note that Python's
`isinstance(value, int)` is true for `bool`, so boolean values take the
integer branch and the later `elif isinstance(value, bool)` arm is dead. -/
def coerceConfigPropRun (key : String) (v : Val) : Val :=
  match v with
  | .dict p =>
      if dhas p "type" then .dict p
      else
        let p := dset p "type" (.str "string")
        let p := if dhas p "required" then p else dset p "required" (.bool false)
        let p := if dhas p "label" then p else dset p "label" (.str (labelOf key))
        .dict p
  | .str s => .dict [("type", .str "string"), ("required", .bool false),
      ("default", .str s), ("label", .str (labelOf key))]
  | .int n => .dict [("type", .str "integer"), ("required", .bool false),
      ("default", .str (pyStr (.int n))), ("label", .str (labelOf key))]
  | .bool b => .dict [("type", .str "integer"), ("required", .bool false),
      ("default", .str (pyStr (.bool b))), ("label", .str (labelOf key))]
  | _ => .dict [("type", .str "string"), ("required", .bool false),
      ("label", .str (labelOf key))]

/-- Lines 621-662 of `run_node` and lines 905-945 of `assembler_node` are
textually the same coercion of one `env` property: strings and dicts lacking
`"type"` get the secret-name inference, integer-like scalars (including
booleans, via `isinstance(value, int)`) do not, and a dict already containing
`"type"` is reassigned unchanged. -/
def coerceEnvProp (key : String) (v : Val) : Val :=
  match v with
  | .dict p =>
      if dhas p "type" then .dict p
      else
        let p := dset p "type" (.str "string")
        let p := if dhas p "required" then p else dset p "required" (.bool false)
        let p := if dhas p "secret" then p else dset p "secret" (.bool (isSecretKey key))
        .dict p
  | .str s => .dict [("type", .str "string"), ("required", .bool false),
      ("default", .str s), ("secret", .bool (isSecretKey key))]
  | .int n => .dict [("type", .str "integer"), ("required", .bool false),
      ("default", .str (pyStr (.int n)))]
  | .bool b => .dict [("type", .str "integer"), ("required", .bool false),
      ("default", .str (pyStr (.bool b)))]
  | _ => .dict [("type", .str "string"), ("required", .bool false)]

/-- The strings and section produced by a successful `run_node`. -/
structure RunOut where
  run_section : PyDict
  run_yaml : String
  config_yaml : String
  entrypoint_yaml : String
  env_yaml : String
deriving Repr

/-- Lines 526-689 of `run_node` on the extracted run section: normalize
property key case, require `config` (dict), `entrypoint` (list) and `env`
(dict), coerce every property into the `Property` struct shape, and dump
the four YAML strings stored into the state and shared memory. -/
def runNodeTail (rs : Val) : Except String RunOut :=
  match rs with
  | .dict d₀ =>
    let d₁ := normStep (normStep d₀ "config") "env"
    match dget d₁ "config" with
    | some (.dict cfg) =>
      match dget d₁ "entrypoint" with
      | some (.list ep) =>
        match dget d₁ "env" with
        | some (.dict env) =>
          let cfg' := mapVals coerceConfigPropRun cfg
          let env' := mapVals coerceEnvProp env
          let d₂ := dset (dset d₁ "config" (.dict cfg')) "env" (.dict env')
          pure {
            run_section := d₂
            run_yaml := yamlDump (.dict [("run", .dict d₂)])
            config_yaml := yamlDump (.dict [("config", .dict cfg')])
            entrypoint_yaml := yamlDump (.dict [("entrypoint", .list ep)])
            env_yaml := yamlDump (.dict [("env", .dict env')]) }
        | _ => throw "Missing or invalid 'env' in run section"
      | _ => throw "Missing or invalid 'entrypoint' in run section"
    | _ => throw "Missing or invalid 'config' in run section"
  | _ => throw "run_section is not a dictionary"

/-- `run_node` (lines 385-698): extract the run section from the response
and process it. -/
def runNode (safeLoad : String → Option Val) (resp : AgentResp) :
    Except String RunOut :=
  (extractRunSection safeLoad resp).bind runNodeTail

example :
    normalize_property_dict (.dict [("Type", .str "string"), ("other", .int 1)])
      = .dict [("type", .str "string"), ("other", .int 1)] := rfl

example :
    (runNode (fun _ => Option.none)
      (.val (.dict [("run", .dict [("config", .dict []), ("entrypoint", .list [.str "npx"]),
        ("env", .dict [("API_KEY", .dict [("type", .str "string")])])])]))).isOk = true := by
  rfl

/-!
## `src/processor/processor.py`: `assembler_node` (lines 700-1035)
-/

/-- Lines 766-777: extract the payload of a wrapping single-key structure
(`if isinstance(x, dict) and k in x: x = x[k]`). -/
def unwrapKey (k : String) (v : Val) : Val :=
  match v with
  | .dict d => match dget d k with
      | some r => r
      | Option.none => .dict d
  | _ => v

/-- Lines 780-803 (and the same fixups in `source_node`): flatten a nested
`git` structure, default `repo`/`branch`/`path`, move a `repository` key onto
a falsy `repo`, and prune every key outside the Go struct. -/
def fixSourceDict (s : PyDict) (repoUrl branch : String) : PyDict :=
  let s :=
    match dget s "git" with
    | some (.dict g) =>
        [("repo", (dget g "repository").getD (.str repoUrl)),
         ("branch", (dget g "branch").getD (.str branch)),
         ("path", (dget g "path").getD (.str "."))]
    | _ => s
  let s := if dhas s "repo" then s else dset s "repo" (.str repoUrl)
  let s :=
    if dhas s "repository" ∧ ¬ pyTruthy ((dget s "repo").getD .none) then
      dset (ddel s "repository") "repo" ((dget s "repository").getD .none)
    else s
  let s := if dhas s "branch" then s else dset s "branch" (.str branch)
  let s := if dhas s "path" then s else dset s "path" (.str ".")
  s.filter fun kv =>
    kv.1 = "repo" ∨ kv.1 = "branch" ∨ kv.1 = "path" ∨ kv.1 = "localPath"

/-- Lines 829-835 / 850: guess the language from the static-analysis text. -/
def guessLanguage (analysis : String) : String :=
  if pyContains (pyLower analysis) "javascript" ∨ pyContains (pyLower analysis) "node"
  then "javascript"
  else if pyContains (pyLower analysis) "python" then "python"
  else "unknown"

/-- Lines 836-842 / 851: default build command for a language. -/
def defaultCommand (lang : String) : String :=
  if lang = "javascript" then "npm install"
  else if lang = "python" then "pip install -r requirements.txt"
  else "echo 'No build command specified'"

/-- Lines 812-853: fill missing build fields with defaults, or synthesize a
whole default build section when the value is not a dict. -/
def fixBuildSection (b : Val) (analysis : String) : PyDict :=
  match b with
  | .dict d =>
      let d := if dhas d "path" then d else dset d "path" (.str ".")
      let d := if dhas d "language" then d
               else dset d "language" (.str (guessLanguage analysis))
      let d := if dhas d "command" then d
               else dset d "command"
                 (.str (defaultCommand (pyStr ((dget d "language").getD .none))))
      if dhas d "output" then d else dset d "output" (.str ".")
  | _ =>
      [("path", .str "."), ("language", .str (guessLanguage analysis)),
       ("command", .str (defaultCommand (guessLanguage analysis))),
       ("output", .str ".")]

/-- Lines 865-901: coercion of one `config` property in `assembler_node`
(as in `run_node` but without the generated label; booleans again take the
integer branch through `isinstance(value, int)`). -/
def coerceConfigPropAsm (v : Val) : Val :=
  match v with
  | .dict p =>
      if dhas p "type" then .dict p
      else
        let p := dset p "type" (.str "string")
        if dhas p "required" then .dict p else .dict (dset p "required" (.bool false))
  | .str s => .dict [("type", .str "string"), ("required", .bool false), ("default", .str s)]
  | .int n => .dict [("type", .str "integer"), ("required", .bool false),
      ("default", .str (pyStr (.int n)))]
  | .bool b => .dict [("type", .str "integer"), ("required", .bool false),
      ("default", .str (pyStr (.bool b)))]
  | _ => .dict [("type", .str "string"), ("required", .bool false)]

/-- Lines 963-977: the required top-level fields and their accepted keys. -/
def requiredFieldKeys : List (String × List String) :=
  [("name", ["name"]),
   ("displayName", ["displayName", "display_name"]),
   ("description", ["description"]),
   ("longDescription", ["longDescription", "long_description"]),
   ("icon", ["icon"]),
   ("categories", ["categories"]),
   ("version", ["version"])]

/-- Lines 979-989: required fields none of whose accepted keys appear. -/
def missingRequired (d : PyDict) : List String :=
  (requiredFieldKeys.filter fun fk => !(fk.2.any fun k => dhas d k)).map (·.1)

/-- The distinct error outcomes of `assembler_node`. -/
inductive AsmErr where
  | priorErrors (errs : List String)   -- lines 703-705
  | sourceInvalid                      -- lines 804-809
  | metadataNotMapping                 -- TypeError from `{**metadata_section, ...}`, caught at line 1026
  | missingFields (fields : List String) -- lines 991-995
  | emptyYaml                          -- lines 1007-1013
deriving Repr

/-- A successful assembly: the merged document and its dump. -/
structure AsmOut where
  assembled : PyDict
  assembled_yaml : String
deriving Repr

/-- Lines 856-945: the rebuilt run section — coerced config and env maps
around the (unwrapped) entrypoint value. -/
def asmRunSection (config entrypoint env : Val) : PyDict :=
  [("config", .dict (match config with
      | .dict m => mapVals (fun _ => coerceConfigPropAsm) m
      | _ => [])),
   ("entrypoint", entrypoint),
   ("env", .dict (match env with
      | .dict m => mapVals coerceEnvProp m
      | _ => []))]

/-- Lines 949-960: `{**metadata_section, "source": .., "build": .., "run": ..}`
plus the tools list when non-empty. -/
def mergedDoc (tools : List Val) (md sourceSec buildSec runSec : PyDict) : PyDict :=
  let a := dset (dset (dset md "source" (.dict sourceSec)) "build" (.dict buildSec))
    "run" (.dict runSec)
  if tools.isEmpty then a else dset a "tools" (.list tools)

/-- `assembler_node` core (lines 700-1025) on the already-parsed sections:
unwrap single-key wrappers, repair source and build, rebuild the run section
with coerced properties, merge with the metadata at top level, append tools,
check the required fields and dump. -/
def assemblerCore (errors : List String) (tools : List Val)
    (metadata source build config entrypoint env : Val)
    (repoUrl branch analysis : String) : Except AsmErr AsmOut := do
  if errors ≠ [] then throw (.priorErrors errors)
  else
    match unwrapKey "source" source with
    | .dict s =>
      match metadata with
      | .dict md =>
        let assembled := mergedDoc tools md (fixSourceDict s repoUrl branch)
          (fixBuildSection (unwrapKey "build" build) analysis)
          (asmRunSection (unwrapKey "config" config) (unwrapKey "entrypoint" entrypoint)
            (unwrapKey "env" env))
        match missingRequired assembled with
        | [] =>
          let dumped := yamlDump (.dict assembled)
          if dumped = "" ∨ (pyStrip dumped).length < 10 then throw .emptyYaml
          else pure { assembled := assembled, assembled_yaml := dumped }
        | fs => throw (.missingFields fs)
      | _ => throw .metadataNotMapping
    | _ => throw .sourceInvalid

/-- The shared-memory keys `assembler_node` reads (each twice: once in the
debug print at lines 711-714 and once when parsing at lines 748-755), in
order of first access; nothing is read when prior errors short-circuit. -/
def assemblerReadKeys (errors : List String) : List String :=
  if errors.isEmpty then
    ["metadata_yaml", "source_yaml", "build_yaml",
     "config_yaml", "entrypoint_yaml", "env_yaml"]
  else []

/-- Shared-memory read (`get_memory`): Python `dict.get`. -/
def smGet (m : List (String × String)) (k : String) : Option String :=
  match m with
  | [] => Option.none
  | (k', v') :: rest => if k' = k then some v' else smGet rest k

/-- The result component of `assembler_node` run against the shared memory:
read the six section strings (with the literal fallbacks `"{}"` / `"[]"`),
parse them with `yaml.safe_load` and run the core; a parse exception lands
in the same top-level handler as the metadata `TypeError` (line 1026). -/
def assemblerNodeRes (errors : List String) (tools : List Val)
    (mem : List (String × String)) (safeLoad : String → Option Val)
    (repoUrl branch analysis : String) : Except AsmErr AsmOut :=
  if errors ≠ [] then throw (.priorErrors errors)
  else
    let read := fun (k dflt : String) =>
      match smGet mem k with
      | some s => if s = "" then dflt else s
      | Option.none => dflt
    match safeLoad (read "metadata_yaml" "\x7b\x7d"),
          safeLoad (read "source_yaml" "\x7b\x7d"),
          safeLoad (read "build_yaml" "\x7b\x7d"),
          safeLoad (read "config_yaml" "\x7b\x7d"),
          safeLoad (read "entrypoint_yaml" "[]"),
          safeLoad (read "env_yaml" "\x7b\x7d") with
    | some md, some src, some bld, some cfg, some ep, some ev =>
        assemblerCore errors tools md src bld cfg ep ev repoUrl branch analysis
    | _, _, _, _, _, _ => throw .metadataNotMapping

/-- `assembler_node` against the shared memory, paired with the list of
shared-memory keys it reads. -/
def assemblerNodeMem (errors : List String) (tools : List Val)
    (mem : List (String × String)) (safeLoad : String → Option Val)
    (repoUrl branch analysis : String) :
    (Except AsmErr AsmOut) × List String :=
  (assemblerNodeRes errors tools mem safeLoad repoUrl branch analysis,
   assemblerReadKeys errors)

/-!
## `src/processor/processor.py`: the section nodes and `process_mcp_server`

Each node receives the agent call's outcome (`Except String Val`: a raised
exception's text, or the response value) and the `MCPState`, and returns the
updated state together with the dictionary it returns to the caller.
-/

/-- Python `k in v` for arbitrary values; `Option.none` models the
`TypeError` raised on non-container values. -/
def pyInKey (k : String) : Val → Option Bool
  | .dict d => some (dhas d k)
  | .list xs => some (xs.any fun v => valBeq v (.str k))
  | .str s => some (pyContains s k)
  | _ => Option.none

/-- Shared-memory update (`update_memory`): Python dict assignment. -/
def smSet (m : List (String × String)) (k v : String) : List (String × String) :=
  match m with
  | [] => [(k, v)]
  | (k', v') :: rest => if k' = k then (k, v) :: rest else (k', v') :: smSet rest k v

/-- The mutable workflow state (class `MCPState`, lines 27-43), restricted to
the fields the nodes touch. -/
structure MCPState where
  metadata : Option String := Option.none
  source : Option String := Option.none
  build : Option String := Option.none
  run : Option String := Option.none
  config : Option String := Option.none
  entrypoint : Option String := Option.none
  env : Option String := Option.none
  final_yaml : Option String := Option.none
  errors : List String := []
  mem : List (String × String) := []
deriving Repr

/-- What a node returns to `process_mcp_server`: every error return in the
source is a singleton `{"errors": [msg]}`, so the caller's
`if "errors" in result and result["errors"]` test is equivalent to matching
on this sum. -/
inductive NodeRet where
  | errs (msg : String)
  | ok (kvs : List (String × String))
deriving Repr

/-- `metadata_node` (lines 59-122): a dict response is dumped directly; any
other response goes through `extract_yaml_from_response` and, when it parses
to a truthy document, is re-dumped; the result is stored in the state field,
in shared memory under `metadata_yaml`, and returned. -/
def metadataNode (safeLoad : String → Option Val) (st : MCPState)
    (call : Except String Val) : MCPState × NodeRet :=
  match call with
  | .error e =>
      let msg := "Metadata generation failed: " ++ e
      ({ st with errors := st.errors ++ [msg], mem := smSet st.mem "metadata_error" msg },
       .errs msg)
  | .ok resp =>
      let content :=
        match resp with
        | .dict kvs => yamlDump (.dict kvs)
        | other =>
            let yc := extract_yaml_from_response other
            match safeLoad yc with
            | some parsed => if pyTruthy parsed then yamlDump parsed else yc
            | Option.none => yc
      ({ st with metadata := some content, mem := smSet st.mem "metadata_yaml" content },
       .ok [("metadata_yaml", content)])

/-- The fallback `{"source": {"repo": .., "branch": .., "path": "."}}` dump
(lines 209-218, 229-237 and 269-277 all build this same document). -/
def defaultSourceDump (repoUrl branch : String) : String :=
  yamlDump (.dict [("source", .dict
    [("repo", .str repoUrl), ("branch", .str branch), ("path", .str ".")])])

/-- `source_node` (lines 124-296).  An empty repository URL is rejected
up front.  In the dict branch a dict-valued `source` entry is repaired with
`fixSourceDict` (non-dict `source` values pass through unrepaired, guarded by
`isinstance`).  In the text branch every non-dict parse result, missing or
non-dict `source` entry ends in the identical fallback document: the
unguarded fixups raise (`in`/indexing/`.get` on non-dicts) and the enclosing
`try` at lines 224-277 falls back, or the explicit default at lines 228-237
is taken. -/
def sourceNode (safeLoad : String → Option Val) (repoUrl branch : String)
    (st : MCPState) (call : Except String Val) : MCPState × NodeRet :=
  if repoUrl = "" then
    let msg := "Repository URL is empty or not provided"
    ({ st with errors := st.errors ++ [msg] }, .errs msg)
  else
    match call with
    | .error e =>
        let msg := "Source generation failed: " ++ e
        ({ st with errors := st.errors ++ [msg], mem := smSet st.mem "source_error" msg },
         .errs msg)
    | .ok resp =>
        let content :=
          match resp with
          | .dict d =>
              match dget d "source" with
              | some (.dict sd) =>
                  yamlDump (.dict (dset d "source" (.dict (fixSourceDict sd repoUrl branch))))
              | some _ => yamlDump (.dict d)
              | Option.none => defaultSourceDump repoUrl branch
          | other =>
              let yc := extract_yaml_from_response other
              match safeLoad yc with
              | some (.dict c) =>
                  match dget c "source" with
                  | some (.dict sd) =>
                      yamlDump (.dict (dset c "source" (.dict (fixSourceDict sd repoUrl branch))))
                  | _ => defaultSourceDump repoUrl branch
              | _ => defaultSourceDump repoUrl branch
        ({ st with source := some content, mem := smSet st.mem "source_yaml" content },
         .ok [("source_yaml", content)])

/-- The build-content computation of `build_node` (lines 322-364): dict
responses are wrapped in a `build` key when needed; text responses are
extracted and parsed, with a parse exception or a `TypeError` from
`"build" not in parsed` yielding the invalid-YAML error, and a falsy parse
keeping the extracted text. -/
def buildContent (safeLoad : String → Option Val) (resp : Val) :
    Except String String :=
  match resp with
  | .dict d =>
      if dhas d "build" then pure (yamlDump (.dict d))
      else
        let buildSec : Val :=
          if dhas d "language" ∨ dhas d "command" ∨ dhas d "output"
          then .dict d else .dict []
        pure (yamlDump (.dict [("build", buildSec)]))
  | other =>
      let yc := extract_yaml_from_response other
      match safeLoad yc with
      | Option.none => throw "Build generation produced invalid YAML: exception"
      | some parsed =>
          if pyTruthy parsed then
            match pyInKey "build" parsed with
            | Option.none => throw "Build generation produced invalid YAML: exception"
            | some hasB =>
                let parsed' :=
                  match parsed, hasB with
                  | .dict pd, false =>
                      if dhas pd "language" ∨ dhas pd "command" ∨ dhas pd "output"
                      then Val.dict [("build", .dict pd)] else .dict pd
                  | _, _ => parsed
                pure (yamlDump parsed')
          else pure yc

/-- `build_node` (lines 298-383): agent exceptions and invalid YAML yield a
single error message; otherwise the computed content is stored. -/
def buildNode (safeLoad : String → Option Val) (st : MCPState)
    (call : Except String Val) : MCPState × NodeRet :=
  match call with
  | .error e =>
      let msg := "Build generation failed: " ++ e
      ({ st with errors := st.errors ++ [msg], mem := smSet st.mem "build_error" msg },
       .errs msg)
  | .ok resp =>
      match buildContent safeLoad resp with
      | .error msg =>
          ({ st with errors := st.errors ++ [msg], mem := smSet st.mem "build_error" msg },
           .errs msg)
      | .ok content =>
          ({ st with build := some content, mem := smSet st.mem "build_yaml" content },
           .ok [("build_yaml", content)])

/-- `run_node` wrapped over the state (lines 385-698): on success the four
dumped strings are stored in the state fields and shared memory and
returned; on failure a single error message is appended. -/
def runNodeSt (safeLoad : String → Option Val) (st : MCPState)
    (call : Except String AgentResp) : MCPState × NodeRet :=
  let resE : Except String RunOut :=
    match call with
    | .error e => .error ("Run section generation failed: " ++ e)
    | .ok resp => runNode safeLoad resp
  match resE with
  | .error msg => ({ st with errors := st.errors ++ [msg] }, .errs msg)
  | .ok out =>
      ({ st with
          run := some out.run_yaml
          config := some out.config_yaml
          entrypoint := some out.entrypoint_yaml
          env := some out.env_yaml
          mem := smSet (smSet (smSet (smSet st.mem "run_yaml" out.run_yaml)
            "config_yaml" out.config_yaml) "entrypoint_yaml" out.entrypoint_yaml)
            "env_yaml" out.env_yaml },
       .ok [("config_yaml", out.config_yaml), ("entrypoint_yaml", out.entrypoint_yaml),
            ("env_yaml", out.env_yaml), ("run_yaml", out.run_yaml)])

/-!
## `process_mcp_server` (lines 1235-1397)

The git clone and the four agent calls are inputs; the pipeline composition,
the error short-circuits and the returned triple are the translated logic.
The schedule records, for each node, a `start` event when the node is
awaited and a `fin` event when its coroutine resolves: `process_mcp_server`
awaits each node expression to completion before the next statement runs.
-/

inductive PNode where
  | metadata | source | build | run | assembler
deriving DecidableEq, Repr

inductive SchedEvent where
  | start (n : PNode)
  | fin (n : PNode)
deriving DecidableEq, Repr

/-- `server.name.lower().replace(" ", "-")` — the safe name used by every
return statement of `process_mcp_server`. -/
def safeName (name : String) : String :=
  replaceChar ' ' '-' (pyLower name)

/-- Outcome of the `git clone` subprocess (lines 1250-1270). -/
inductive CloneRes where
  | ok (branch : String)
  | fail (e : String)

structure ProcArgs where
  serverName : String
  tools : List Val
  repoUrl : String
  clone : CloneRes
  analysis : String
  safeLoad : String → Option Val
  metadataCall : Except String Val
  sourceCall : Except String Val
  buildCall : Except String Val
  runCall : Except String AgentResp

structure ProcRes where
  name : String
  yaml : String
  errors : List String
  sched : List SchedEvent

/-- Truthiness of an optional state string (`if not state.metadata`). -/
def optTruthy : Option String → Bool
  | some s => s != ""
  | Option.none => false

/-- Render an assembler error the way `assembler_node` returns it in its
`errors` list. -/
def asmErrMsgs : AsmErr → List String
  | .priorErrors l => l
  | .sourceInvalid => ["Source section is missing or invalid"]
  | .metadataNotMapping => ["Assembly failed: exception"]
  | .missingFields fs => ["Missing required fields: " ++ joinWith ", " fs]
  | .emptyYaml => ["Assembler produced empty or invalid YAML"]

/-- `process_mcp_server` (lines 1235-1397): clone, then await the metadata,
source, build and run nodes strictly in sequence, returning early with
`(safe_name, "", errors)` on the first failure; check the presence of the
four components; await the assembler; and return the assembled YAML. -/
def process_mcp_server (a : ProcArgs) : ProcRes :=
  let nm := safeName a.serverName
  match a.clone with
  | .fail e =>
      { name := nm, yaml := "", errors := ["Repository cloning failed: " ++ e], sched := [] }
  | .ok branch =>
    let st0 : MCPState := {}
    let p1 := metadataNode a.safeLoad st0 a.metadataCall
    let tr1 := [SchedEvent.start .metadata, SchedEvent.fin .metadata]
    match p1.2 with
    | .errs m => { name := nm, yaml := "", errors := [m], sched := tr1 }
    | .ok _ =>
      let p2 := sourceNode a.safeLoad a.repoUrl branch p1.1 a.sourceCall
      let tr2 := tr1 ++ [SchedEvent.start .source, SchedEvent.fin .source]
      match p2.2 with
      | .errs m => { name := nm, yaml := "", errors := [m], sched := tr2 }
      | .ok _ =>
        let p3 := buildNode a.safeLoad p2.1 a.buildCall
        let tr3 := tr2 ++ [SchedEvent.start .build, SchedEvent.fin .build]
        match p3.2 with
        | .errs m => { name := nm, yaml := "", errors := [m], sched := tr3 }
        | .ok _ =>
          let p4 := runNodeSt a.safeLoad p3.1 a.runCall
          let st4 := p4.1
          let tr4 := tr3 ++ [SchedEvent.start .run, SchedEvent.fin .run]
          match p4.2 with
          | .errs m => { name := nm, yaml := "", errors := [m], sched := tr4 }
          | .ok _ =>
            -- lines 1317-1336: presence check of the four components
            let st5 :=
              if optTruthy st4.run then st4
              else match smGet st4.mem "run_yaml" with
                | some s => if s != "" then { st4 with run := some s } else st4
                | Option.none => st4
            let missing :=
              (if optTruthy st5.metadata then [] else ["metadata"]) ++
              (if optTruthy st5.source then [] else ["source"]) ++
              (if optTruthy st5.build then [] else ["build"]) ++
              (if optTruthy st5.run then [] else ["run"])
            if missing ≠ [] then
              { name := nm, yaml := "",
                errors := ["Missing required components: " ++ joinWith ", " missing],
                sched := tr4 }
            else
              let pa := assemblerNodeMem st5.errors a.tools st5.mem
                a.safeLoad a.repoUrl branch a.analysis
              let tr5 := tr4 ++ [SchedEvent.start .assembler, SchedEvent.fin .assembler]
              match pa.1 with
              | .error err =>
                  { name := nm, yaml := "", errors := asmErrMsgs err, sched := tr5 }
              | .ok out =>
                  if out.assembled_yaml = "" then
                    { name := nm, yaml := "", errors := ["Failed to produce YAML output"],
                      sched := tr5 }
                  else
                    { name := nm, yaml := out.assembled_yaml, errors := [], sched := tr5 }

/-!
## `src/agents/validator.py`: the validation loop

`YAMLTrackingCallbackHandler` (lines 279-402) plus the inner
`YAMLExtractingCallbackHandler` (lines 214-229) form a state machine over
the callback events; an event carries the code-fence blocks found by
`re.findall(r'```(?:yaml)?\s*([\s\S]*?)```', text)` in the relevant LLM
text, the tool name, and for `on_tool_end` the parsed `success` flag
(`Option.none` models a JSON parse failure, the bare `except`).  The
langchain `AgentExecutor` (invoked at lines 203-239 with
`max_iterations=max_iterations`) is modelled by its documented semantics:
each planning step emits the LLM callback and then either an agent action
(tool run and its end callback) or the agent's finish; after
`max_iterations` action steps without a finish the executor stops itself
and emits the stopped `AgentFinish`, whose text contains no code fence.
-/

structure TrackerState where
  current_yaml : String
  iteration : Nat
  validation_success : Bool
  writes : List (String × String)
deriving Repr

/-- `__init__` (lines 282-301): the tracker starts with the initial YAML,
iteration 0, `validation_success = True`, and one `initial` write. -/
def trackerInit (initialYaml : String) : TrackerState :=
  { current_yaml := initialYaml, iteration := 0, validation_success := true,
    writes := [("initial", initialYaml)] }

inductive VEvent where
  | llmEnd (blocks : List String)
  | agentAction (tool : String)
  | toolEnd (tool : String) (success : Option Bool)
  | agentFinish (blocks : List String)
deriving Repr

/-- `YAMLExtractingCallbackHandler.on_llm_end` (lines 215-229): when the LLM
text contains fenced blocks, the last block becomes the current YAML. -/
def stepLlmEnd (st : TrackerState) (blocks : List String) : TrackerState :=
  match blocks.getLast? with
  | some b => { st with current_yaml := b, writes := st.writes ++ [("llm_correction", b)] }
  | Option.none => st

/-- `on_agent_action` (lines 350-370): count the iteration, force
`validation_success = False` past the budget, and write the current YAML
(to the standard run file first when the tool is `run_mcp`). -/
def stepAction (maxIter : Nat) (st : TrackerState) (tool : String) : TrackerState :=
  let st := { st with iteration := st.iteration + 1 }
  let st := if st.iteration > maxIter then { st with validation_success := false } else st
  let st :=
    if tool = "run_mcp" then { st with writes := st.writes ++ [("pre_run", st.current_yaml)] }
    else st
  { st with writes := st.writes ++ [("action", st.current_yaml)] }

/-- `on_tool_end` (lines 372-394): only `run_mcp` results are inspected; a
successful run sets `validation_success = True`, a failed run at or past the
budget forces it to `False`, and an unparsable result only logs. -/
def stepToolEnd (maxIter : Nat) (st : TrackerState) (tool : String)
    (success : Option Bool) : TrackerState :=
  if tool = "run_mcp" then
    match success with
    | some s =>
        let st := if s then { st with validation_success := true } else st
        let st := { st with writes :=
          st.writes ++ [((if s then "run_success" else "run_failure"), st.current_yaml)] }
        if ¬ s ∧ maxIter ≤ st.iteration then { st with validation_success := false } else st
    | Option.none => { st with writes := st.writes ++ [("run_unknown", st.current_yaml)] }
  else st

/-- `on_agent_finish` (lines 338-348): the last fenced block of the final
output, when present, becomes the current YAML. -/
def stepFinish (st : TrackerState) (blocks : List String) : TrackerState :=
  match blocks.getLast? with
  | some b => { st with current_yaml := b, writes := st.writes ++ [("final", b)] }
  | Option.none => st

def stepEvent (maxIter : Nat) (st : TrackerState) : VEvent → TrackerState
  | .llmEnd blocks => stepLlmEnd st blocks
  | .agentAction tool => stepAction maxIter st tool
  | .toolEnd tool s => stepToolEnd maxIter st tool s
  | .agentFinish blocks => stepFinish st blocks

/-- Tracker step paired with a specification-side ghost: the YAML candidate
current at the most recent successful `run_mcp` — the last-known-good text
(the candidate was written to the run file at the action and is unchanged
when its `on_tool_end` arrives). -/
def stepEventG (maxIter : Nat) (p : TrackerState × Option String) (e : VEvent) :
    TrackerState × Option String :=
  let st' := stepEvent maxIter p.1 e
  match e with
  | .toolEnd tool (some true) =>
      if tool = "run_mcp" then (st', some p.1.current_yaml) else (st', p.2)
  | _ => (st', p.2)

/-- One agent planning step: an LLM output (its fenced blocks) followed by a
tool action with its result, or by the agent's finish. -/
inductive AgentTurn where
  | act (blocks : List String) (tool : String) (success : Option Bool)
  | finish (blocks : List String)

inductive StopCause where
  | agentFinished
  | budgetExhausted
deriving DecidableEq, Repr

/-- The `AgentExecutor` loop bounded by `max_iterations`: fuel counts the
remaining planning steps; exhausted fuel emits the executor's own stopped
finish (no fenced block in its fixed message). -/
def execTrace (turns : Nat → AgentTurn) : Nat → Nat → List VEvent × StopCause
  | 0, _ => ([.agentFinish []], .budgetExhausted)
  | fuel + 1, i =>
      match turns i with
      | .finish blocks => ([.llmEnd blocks, .agentFinish blocks], .agentFinished)
      | .act blocks tool success =>
          let rest := execTrace turns fuel (i + 1)
          (.llmEnd blocks :: .agentAction tool :: .toolEnd tool success :: rest.1, rest.2)

/-- `run_mcp_validation` (lines 178-277): run the executor with
`max_iterations`, tracking the YAML through the callbacks; the returned
text is `yaml_tracker.get_final_yaml()`, i.e. `current_yaml`.  The result
also carries the stop cause and the ghost last-known-good candidate. -/
def run_mcp_validation (maxIterations : Nat) (turns : Nat → AgentTurn)
    (mcpYaml : String) : TrackerState × StopCause × Option String :=
  let tc := execTrace turns maxIterations 0
  let p := tc.1.foldl (stepEventG maxIterations) (trackerInit mcpYaml, Option.none)
  (p.1, tc.2, p.2)

/-- Number of `on_agent_action` callbacks in a trace. -/
def countActions : List VEvent → Nat
  | [] => 0
  | .agentAction _ :: es => countActions es + 1
  | _ :: es => countActions es

/-!
## Lemma toolkit
-/

theorem dget_dset_self (d : PyDict) (k : String) (v : Val) :
    dget (dset d k v) k = some v := by
  induction d with
  | nil => simp [dset, dget]
  | cons kv rest ih =>
      by_cases h : kv.1 = k
      · simp [dset, dget, h]
      · simp [dset, dget, h, ih]

theorem dget_dset_ne (d : PyDict) (k k' : String) (v : Val) (h : k ≠ k') :
    dget (dset d k v) k' = dget d k' := by
  induction d with
  | nil => simp [dset, dget, h]
  | cons kv rest ih =>
      by_cases h1 : kv.1 = k
      · simp [dset, dget, h1, h]
      · by_cases h2 : kv.1 = k'
        · simp [dset, dget, h1, h2, Ne.symm h]
        · simp [dset, dget, h1, h2, ih]

theorem dhas_dset_self (d : PyDict) (k : String) (v : Val) :
    dhas (dset d k v) k = true := by
  simp [dhas, dget_dset_self]

theorem dhas_dset_ne (d : PyDict) (k k' : String) (v : Val) (h : k ≠ k') :
    dhas (dset d k v) k' = dhas d k' := by
  simp [dhas, dget_dset_ne _ _ _ _ h]

theorem dget_none_of_not_mem_keys (d : PyDict) (k : String)
    (h : k ∉ d.map Prod.fst) : dget d k = Option.none := by
  induction d with
  | nil => rfl
  | cons kv rest ih =>
      simp only [List.map_cons, List.mem_cons] at h
      push_neg at h
      simp [dget, Ne.symm h.1, ih h.2]

theorem dset_append_of_not_mem (d : PyDict) (k : String) (v : Val)
    (h : k ∉ d.map Prod.fst) : dset d k v = d ++ [(k, v)] := by
  induction d with
  | nil => rfl
  | cons kv rest ih =>
      simp only [List.map_cons, List.mem_cons] at h
      push_neg at h
      simp [dset, Ne.symm h.1, ih h.2]

theorem smGet_smSet_self (m : List (String × String)) (k v : String) :
    smGet (smSet m k v) k = some v := by
  induction m with
  | nil => simp [smSet, smGet]
  | cons kv rest ih =>
      by_cases h : kv.1 = k
      · simp [smSet, smGet, h]
      · simp [smSet, smGet, h, ih]

theorem smGet_smSet_ne (m : List (String × String)) (k k' v : String)
    (h : k ≠ k') : smGet (smSet m k v) k' = smGet m k' := by
  induction m with
  | nil => simp [smSet, smGet, h]
  | cons kv rest ih =>
      by_cases h1 : kv.1 = k
      · simp [smSet, smGet, h1, h]
      · by_cases h2 : kv.1 = k'
        · simp [smSet, smGet, h1, h2, Ne.symm h]
        · simp [smSet, smGet, h1, h2, ih]

theorem stepEvent_iteration (m : Nat) (st : TrackerState) (e : VEvent) :
    (stepEvent m st e).iteration
      = st.iteration + (match e with | .agentAction _ => 1 | _ => 0) := by
  cases e with
  | llmEnd blocks =>
      simp only [stepEvent, stepLlmEnd]
      split <;> rfl
  | agentAction tool =>
      simp only [stepEvent, stepAction]
      split <;> split <;> simp
  | toolEnd tool s =>
      simp only [stepEvent, stepToolEnd]
      split
      · rcases s with _ | b
        · simp
        · cases b
          · simp only [Bool.false_eq_true, if_false]
            split <;> simp
          · simp
      · simp
  | agentFinish blocks =>
      simp only [stepEvent, stepFinish]
      split <;> rfl

theorem stepEventG_fst (m : Nat) (p : TrackerState × Option String) (e : VEvent) :
    (stepEventG m p e).1 = stepEvent m p.1 e := by
  cases e with
  | toolEnd tool s =>
      rcases s with _ | b
      · rfl
      · cases b
        · rfl
        · simp only [stepEventG]
          split <;> rfl
  | llmEnd blocks => rfl
  | agentAction tool => rfl
  | agentFinish blocks => rfl

theorem foldG_iteration (m : Nat) :
    ∀ (tr : List VEvent) (p : TrackerState × Option String),
      ((tr.foldl (stepEventG m) p).1).iteration = p.1.iteration + countActions tr := by
  intro tr
  induction tr with
  | nil => intro p; simp [countActions]
  | cons e tr ih =>
      intro p
      rw [List.foldl_cons, ih, stepEventG_fst, stepEvent_iteration]
      cases e <;> (simp [countActions]; try omega)

theorem execTrace_actions_le (turns : Nat → AgentTurn) :
    ∀ (fuel i : Nat), countActions (execTrace turns fuel i).1 ≤ fuel := by
  intro fuel
  induction fuel with
  | zero => intro i; simp [execTrace, countActions]
  | succ fuel ih =>
      intro i
      simp only [execTrace]
      cases turns i with
      | finish blocks => simp [countActions]
      | act blocks tool success =>
          simp only [countActions]
          have := ih (i + 1)
          omega

theorem execTrace_budget_actions (turns : Nat → AgentTurn) :
    ∀ (fuel i : Nat), (execTrace turns fuel i).2 = .budgetExhausted →
      countActions (execTrace turns fuel i).1 = fuel := by
  intro fuel
  induction fuel with
  | zero => intro i _; simp [execTrace, countActions]
  | succ fuel ih =>
      intro i h
      simp only [execTrace] at h ⊢
      cases hturn : turns i with
      | finish blocks => rw [hturn] at h; simp at h
      | act blocks tool success =>
          rw [hturn] at h
          simp only at h
          simp only [countActions]
          rw [ih (i + 1) h]

/-- **C1.** The validator loop is bounded by the max-iteration count: in
every execution of `run_mcp_validation` the tracked iteration counter stays
at or below `max_iterations`; when the loop stops because the budget is
exhausted, exactly `max_iterations` agent actions were counted; and the
tracker forces `validation_success` to `False` at any agent action taken
once the counter has reached the budget. -/
theorem C1_validator_iteration_bounded (m : Nat) (turns : Nat → AgentTurn)
    (y : String) :
    (run_mcp_validation m turns y).1.iteration ≤ m
    ∧ ((run_mcp_validation m turns y).2.1 = .budgetExhausted →
        (run_mcp_validation m turns y).1.iteration = m)
    ∧ (∀ st tool, m ≤ st.iteration →
        (stepAction m st tool).validation_success = false) := by
  refine ⟨?_, ?_, ?_⟩
  · show ((((execTrace turns m 0).1).foldl (stepEventG m)
      (trackerInit y, Option.none)).1).iteration ≤ m
    rw [foldG_iteration]
    simp only [trackerInit]
    have := execTrace_actions_le turns m 0
    omega
  · intro h
    show ((((execTrace turns m 0).1).foldl (stepEventG m)
      (trackerInit y, Option.none)).1).iteration = m
    rw [foldG_iteration]
    simp only [trackerInit]
    have := execTrace_budget_actions turns m 0 h
    omega
  · intro st tool h
    simp only [stepAction]
    have h1 : st.iteration + 1 > m := by omega
    simp only [h1, if_true]
    split <;> simp

def c1turns : Nat → AgentTurn := fun _ => .act ["y"] "run_mcp" (some false)

def c1state : TrackerState :=
  { current_yaml := "x", iteration := 2, validation_success := true, writes := [] }

/-- Witness for C1 at `max_iterations = 2` with an agent that keeps failing:
the counter stops exactly at the budget, and a further action at the budget
forces the failure flag. -/
theorem C1_witness :
    (run_mcp_validation 2 c1turns "i").1.iteration ≤ 2
    ∧ (run_mcp_validation 2 c1turns "i").1.iteration = 2
    ∧ (stepAction 2 c1state "t").validation_success = false :=
  ⟨(C1_validator_iteration_bounded 2 c1turns "i").1,
   (C1_validator_iteration_bounded 2 c1turns "i").2.1 (by rfl),
   (C1_validator_iteration_bounded 2 c1turns "i").2.2 c1state "t" (by decide)⟩

/-- Events that do not modify the tracked YAML: LLM outputs and final
answers with no fenced block, and all action / tool-end callbacks. -/
def yamlPreserving : VEvent → Prop
  | .llmEnd bs => bs = []
  | .agentFinish bs => bs = []
  | _ => True

theorem stepEvent_current_of_preserving (m : Nat) (st : TrackerState)
    (e : VEvent) (he : yamlPreserving e) :
    (stepEvent m st e).current_yaml = st.current_yaml := by
  cases e with
  | llmEnd blocks =>
      have : blocks = [] := he
      subst this
      rfl
  | agentFinish blocks =>
      have : blocks = [] := he
      subst this
      rfl
  | agentAction tool =>
      simp only [stepEvent, stepAction]
      split <;> split <;> simp
  | toolEnd tool s =>
      simp only [stepEvent, stepToolEnd]
      split
      · rcases s with _ | b
        · simp
        · cases b
          · simp only [Bool.false_eq_true, if_false]
            split <;> simp
          · simp
      · simp

theorem stepToolEnd_current (m : Nat) (st : TrackerState) (tool : String)
    (s : Option Bool) : (stepToolEnd m st tool s).current_yaml = st.current_yaml :=
  stepEvent_current_of_preserving m st (.toolEnd tool s) trivial

/-- The last-known-good ghost tracks `current_yaml` across yaml-preserving
events once they agree. -/
theorem stepG_sync (m : Nat) (p : TrackerState × Option String) (e : VEvent)
    (he : yamlPreserving e) (hp : p.2 = some p.1.current_yaml) :
    (stepEventG m p e).2 = some ((stepEventG m p e).1).current_yaml := by
  have hc : (stepEvent m p.1 e).current_yaml = p.1.current_yaml :=
    stepEvent_current_of_preserving m p.1 e he
  cases e with
  | llmEnd blocks =>
      show p.2 = some (stepEvent m p.1 (.llmEnd blocks)).current_yaml
      rw [hc]; exact hp
  | agentAction tool =>
      show p.2 = some (stepEvent m p.1 (.agentAction tool)).current_yaml
      rw [hc]; exact hp
  | agentFinish blocks =>
      show p.2 = some (stepEvent m p.1 (.agentFinish blocks)).current_yaml
      rw [hc]; exact hp
  | toolEnd tool b =>
      rcases b with _ | b
      · show p.2 = some (stepEvent m p.1 (.toolEnd tool Option.none)).current_yaml
        rw [hc]; exact hp
      · cases b
        · show p.2 = some (stepEvent m p.1 (.toolEnd tool (some false))).current_yaml
          rw [hc]; exact hp
        · by_cases ht : tool = "run_mcp"
          · subst ht
            simp only [stepEventG]
            simp only [if_true]
            show some p.1.current_yaml
              = some (stepEvent m p.1 (.toolEnd "run_mcp" (some true))).current_yaml
            rw [hc]
          · simp only [stepEventG]
            rw [if_neg ht]
            show p.2 = some (stepEvent m p.1 (.toolEnd tool (some true))).current_yaml
            rw [hc]; exact hp

theorem foldG_sync (m : Nat) :
    ∀ (tr : List VEvent) (p : TrackerState × Option String),
      (∀ e ∈ tr, yamlPreserving e) → p.2 = some p.1.current_yaml →
      ((tr.foldl (stepEventG m) p).2) = some ((tr.foldl (stepEventG m) p).1).current_yaml := by
  intro tr
  induction tr with
  | nil => intro p _ hp; simpa using hp
  | cons e tr ih =>
      intro p h hp
      rw [List.foldl_cons]
      exact ih _ (fun e' he' => h e' (List.mem_cons_of_mem _ he'))
        (stepG_sync m p e (h e (List.mem_cons_self _ _)) hp)

/-- Process a callback trace from the initial tracker state, with the
specification-side last-known-good ghost. -/
def processTrace (m : Nat) (init : String) (tr : List VEvent) :
    TrackerState × Option String :=
  tr.foldl (stepEventG m) (trackerInit init, Option.none)

def c2turns : Nat → AgentTurn := fun i =>
  if i = 0 then .act ["good"] "run_mcp" (some true)
  else if i = 1 then .act ["bad"] "run_mcp" (some false)
  else .finish []

/-- **C2, counterexample.** An execution in which a run attempt succeeded
(the last-known-good candidate is `"good"`), yet `get_final_yaml` returns
the later candidate `"bad"` that failed its run: the returned text is the
most recent candidate, not the most recent candidate that passed. -/
theorem C2_counterexample :
    (run_mcp_validation 5 c2turns "init").2.2 = some "good"
    ∧ (run_mcp_validation 5 c2turns "init").1.current_yaml = "bad"
    ∧ ("bad" : String) ≠ "good" :=
  ⟨rfl, rfl, by decide⟩

/-- **C2, amended.** `get_final_yaml` returns `current_yaml`, the most
recent tracked candidate; it coincides with the last candidate that passed
the external run exactly when no fenced-block update follows the last
successful `run_mcp` result: after any trace whose suffix beyond a
successful `run_mcp` tool end preserves the tracked YAML, the returned text
is the last-known-good candidate. -/
theorem C2_returns_last_known_good (m : Nat) (init : String)
    (t1 t2 : List VEvent) (h : ∀ e ∈ t2, yamlPreserving e) :
    (processTrace m init (t1 ++ .toolEnd "run_mcp" (some true) :: t2)).2
      = some (processTrace m init (t1 ++ .toolEnd "run_mcp" (some true) :: t2)).1.current_yaml := by
  unfold processTrace
  rw [List.foldl_append, List.foldl_cons]
  set p := t1.foldl (stepEventG m) (trackerInit init, Option.none) with hp
  apply foldG_sync m t2 _ h
  have hc : (stepEvent m p.1 (.toolEnd "run_mcp" (some true))).current_yaml
      = p.1.current_yaml :=
    stepEvent_current_of_preserving m p.1 (.toolEnd "run_mcp" (some true)) trivial
  show (stepEventG m p (.toolEnd "run_mcp" (some true))).2
    = some ((stepEventG m p (.toolEnd "run_mcp" (some true))).1).current_yaml
  simp only [stepEventG]
  simp only [if_true]
  show some p.1.current_yaml
    = some (stepEvent m p.1 (.toolEnd "run_mcp" (some true))).current_yaml
  rw [hc]

/-- Witness for the amended C2: a concrete trace ending in a successful run
followed only by a block-free finish. -/
theorem C2_witness :
    (processTrace 5 "i" ([.llmEnd ["y1"]] ++ .toolEnd "run_mcp" (some true) :: [.agentFinish []])).2
      = some (processTrace 5 "i"
          ([.llmEnd ["y1"]] ++ .toolEnd "run_mcp" (some true) :: [.agentFinish []])).1.current_yaml :=
  C2_returns_last_known_good 5 "i" [.llmEnd ["y1"]] [.agentFinish []]
    (by intro e he; rw [List.mem_singleton] at he; subst he; trivial)

mutual
/-- `overlapB tr a b`: after some `start a`, a `start b` occurs before the
matching `fin a` — i.e. node `b` begins while node `a` is still running. -/
def overlapB : List SchedEvent → PNode → PNode → Bool
  | [], _, _ => false
  | e :: tr, a, b =>
      if e = .start a then overlapIn tr a b else overlapB tr a b

def overlapIn : List SchedEvent → PNode → PNode → Bool
  | [], _, _ => false
  | e :: tr, a, b =>
      if e = .fin a then overlapB tr a b
      else if e = .start b then true
      else overlapIn tr a b
end

/-- Traces in which every node runs to completion before the next starts. -/
inductive WellSeq : List SchedEvent → Prop where
  | nil : WellSeq []
  | pair (n : PNode) (tr : List SchedEvent) :
      WellSeq tr → WellSeq (.start n :: .fin n :: tr)

theorem wellSeq_no_overlap : ∀ tr : List SchedEvent, WellSeq tr →
    ∀ x y : PNode, overlapB tr x y = false := by
  intro tr h
  induction h with
  | nil => intro x y; rfl
  | pair n tr _ ih =>
      intro x y
      by_cases hx : n = x
      · subst hx
        simp [overlapB, overlapIn, ih]
      · simp [overlapB, overlapIn, hx, ih]

/-- **C3, amended.** In `process_mcp_server` the section generators do not
run concurrently: every execution schedules metadata, source, build, run and
the assembler strictly sequentially — each node starts only after the
previous one has resolved, and no two nodes ever overlap. -/
theorem C3_nodes_sequential (a : ProcArgs) :
    WellSeq (process_mcp_server a).sched
    ∧ ∀ x y : PNode, overlapB (process_mcp_server a).sched x y = false := by
  have hw : WellSeq (process_mcp_server a).sched := by
    unfold process_mcp_server
    dsimp only
    repeat' split
    all_goals first
      | exact WellSeq.nil
      | exact WellSeq.pair _ _ WellSeq.nil
      | exact WellSeq.pair _ _ (WellSeq.pair _ _ WellSeq.nil)
      | exact WellSeq.pair _ _ (WellSeq.pair _ _ (WellSeq.pair _ _ WellSeq.nil))
      | exact WellSeq.pair _ _ (WellSeq.pair _ _ (WellSeq.pair _ _
          (WellSeq.pair _ _ WellSeq.nil)))
      | exact WellSeq.pair _ _ (WellSeq.pair _ _ (WellSeq.pair _ _
          (WellSeq.pair _ _ (WellSeq.pair _ _ WellSeq.nil))))
  exact ⟨hw, fun x y => wellSeq_no_overlap _ hw x y⟩

def c3args : ProcArgs :=
  { serverName := "s", tools := [], repoUrl := "u", clone := .ok "main",
    analysis := "", safeLoad := fun _ => some (.dict []),
    metadataCall := .ok (.dict [("name", .str "x")]),
    sourceCall := .ok (.dict [("source", .dict [("repo", .str "r")])]),
    buildCall := .ok (.dict [("build", .dict [])]),
    runCall := .ok (.val (.dict [("run", .dict [("config", .dict []),
      ("entrypoint", .list [.str "x"]), ("env", .dict [])])])) }

/-- **C3, counterexample.** A run in which every section generator executes:
the schedule is strictly sequential — in particular the independent
metadata and source generators do not run concurrently, contradicting the
claimed concurrent fan-out. -/
theorem C3_counterexample :
    (process_mcp_server c3args).sched
      = [.start .metadata, .fin .metadata, .start .source, .fin .source,
         .start .build, .fin .build, .start .run, .fin .run,
         .start .assembler, .fin .assembler]
    ∧ overlapB (process_mcp_server c3args).sched .metadata .source = false
    ∧ overlapB (process_mcp_server c3args).sched .source .metadata = false :=
  ⟨rfl, rfl, rfl⟩

/-!
## C4: the run-section normalizer
-/

def isStrV : Val → Bool
  | .str _ => true
  | _ => false

theorem foldl_dset_map (f : String → String) :
    ∀ (kvs : List (String × Val)) (acc : PyDict),
      (acc.map Prod.fst ++ kvs.map fun kv => f kv.1).Nodup →
      kvs.foldl (fun acc kv => dset acc (f kv.1) kv.2) acc
        = acc ++ kvs.map (fun kv => (f kv.1, kv.2)) := by
  intro kvs
  induction kvs with
  | nil => intro acc _; simp
  | cons kv kvs ih =>
      intro acc hnd
      have hdisj : (f kv.1) ∉ acc.map Prod.fst := by
        have := List.disjoint_of_nodup_append hnd
        intro hmem
        exact this hmem (List.mem_cons_self _ _)
      rw [List.foldl_cons, dset_append_of_not_mem _ _ _ hdisj, ih]
      · simp
      · simpa using hnd

theorem dget_default_after_ensure (p : PyDict) (k : String) (hk : k ≠ "default")
    (v : Val) :
    dget (if dhas p k then p else dset p k v) "default" = dget p "default" := by
  split
  · rfl
  · exact dget_dset_ne p k "default" v hk

theorem coerceDefault_nonstring (p : PyDict) (v : Val)
    (hv : dget p "default" = some v) (hs : isStrV v = false) :
    dget (coerceDefault p) "default" = some (.str (pyLower (pyStr v))) := by
  rcases v with _ | b | n | s | xs | kvs
  · simp [coerceDefault, hv, dget_dset_self]
  · simp [coerceDefault, hv, dget_dset_self]
  · simp [coerceDefault, hv, dget_dset_self]
  · simp [isStrV] at hs
  · simp [coerceDefault, hv, dget_dset_self]
  · simp [coerceDefault, hv, dget_dset_self]

/-- **C4.** The run-section normalizer: `normalize_property_dict` rebuilds a
property dict lowercasing exactly the keys `'Type'`, `'Required'`,
`'Default'`, `'Secret'`, `'Label'` and leaving every other key and all
values unchanged (stated for inputs whose normalized keys stay distinct, as
Python dict keys are); and in the `RunResponse` fixups every non-string
`default` value of a config or env property is converted to its lowercased
string representation. -/
theorem C4_run_normalizer (k : String) (kvs p : PyDict) (v : Val)
    (hnd : (kvs.map fun kv => normalizeKey kv.1).Nodup)
    (hv : dget p "default" = some v) (hs : isStrV v = false) :
    (∀ k', (k' = "Type" ∨ k' = "Required" ∨ k' = "Default" ∨ k' = "Secret" ∨ k' = "Label") →
        normalizeKey k' = pyLower k')
    ∧ (∀ k', ¬(k' = "Type" ∨ k' = "Required" ∨ k' = "Default" ∨ k' = "Secret" ∨ k' = "Label") →
        normalizeKey k' = k')
    ∧ normalize_property_dict (.dict kvs)
        = .dict (kvs.map fun kv => (normalizeKey kv.1, kv.2))
    ∧ dget (fixRRConfigProp p) "default" = some (.str (pyLower (pyStr v)))
    ∧ dget (fixRREnvProp k p) "default" = some (.str (pyLower (pyStr v))) := by
  refine ⟨?_, ?_, ?_, ?_, ?_⟩
  · intro k' hk'
    simp only [normalizeKey, if_pos hk']
  · intro k' hk'
    simp only [normalizeKey, if_neg hk']
  · simp only [normalize_property_dict]
    rw [foldl_dset_map (fun kv => normalizeKey kv) kvs []]
    · simp
    · simpa using hnd
  · unfold fixRRConfigProp
    apply coerceDefault_nonstring _ v _ hs
    rw [dget_default_after_ensure _ _ (by decide) _,
        dget_default_after_ensure _ _ (by decide) _]
    exact hv
  · unfold fixRREnvProp
    apply coerceDefault_nonstring _ v _ hs
    rw [dget_default_after_ensure _ _ (by decide) _,
        dget_default_after_ensure _ _ (by decide) _,
        dget_default_after_ensure _ _ (by decide) _]
    exact hv

/-- Witness for C4 at a concrete property dict with a capitalized `Type`
key and an integer default. -/
theorem C4_witness :
    (∀ k', (k' = "Type" ∨ k' = "Required" ∨ k' = "Default" ∨ k' = "Secret" ∨ k' = "Label") →
        normalizeKey k' = pyLower k')
    ∧ (∀ k', ¬(k' = "Type" ∨ k' = "Required" ∨ k' = "Default" ∨ k' = "Secret" ∨ k' = "Label") →
        normalizeKey k' = k')
    ∧ normalize_property_dict (.dict [("Type", .str "string"), ("other", .int 1)])
        = .dict ([("Type", Val.str "string"), ("other", .int 1)].map
            fun kv => (normalizeKey kv.1, kv.2))
    ∧ dget (fixRRConfigProp [("default", .int 5)]) "default"
        = some (.str (pyLower (pyStr (.int 5))))
    ∧ dget (fixRREnvProp "API_KEY" [("default", .int 5)]) "default"
        = some (.str (pyLower (pyStr (.int 5)))) :=
  C4_run_normalizer "API_KEY" [("Type", .str "string"), ("other", .int 1)]
    [("default", .int 5)] (.int 5) (by decide) rfl rfl

def c5metadata : PyDict :=
  [("name", .str "n"), ("displayName", .str "d"), ("description", .str "de"),
   ("longDescription", .str "l"), ("icon", .str "i"), ("categories", .list []),
   ("version", .str "1")]

/-- **C5, counterexample.** With a complete metadata section (no required
field missing) but a list-valued source section, `assembler_node` returns
the source-invalid error: an error result does not imply a missing required
field, refuting the claimed "if and only if". -/
theorem C5_counterexample :
    assemblerCore [] [] (.dict c5metadata) (.list []) (.dict []) (.dict [])
        (.list []) (.dict []) "u" "b" "" = .error .sourceInvalid
    ∧ missingRequired c5metadata = [] :=
  ⟨rfl, rfl⟩

/-- **C5, amended.** When the state has no prior errors, the source section
unwraps to a dict and the metadata document is a mapping, `assembler_node`
errors if and only if a required top-level field (name, displayName,
description, longDescription, icon, categories, version — with snake_case
accepted for displayName and longDescription) is absent from the merged
document, or the dumped text strips to fewer than 10 characters; otherwise
it returns the merged document.  Pre-existing errors, a non-dict source and
a non-mapping metadata each yield their own error with no assembled YAML. -/
theorem C5_assembler_required_fields (tools : List Val)
    (metadata source build config entrypoint env : Val)
    (repoUrl branch analysis : String) (s md : PyDict)
    (hs : unwrapKey "source" source = .dict s) (hmd : metadata = .dict md) :
    (missingRequired (mergedDoc tools md (fixSourceDict s repoUrl branch)
          (fixBuildSection (unwrapKey "build" build) analysis)
          (asmRunSection (unwrapKey "config" config) (unwrapKey "entrypoint" entrypoint)
            (unwrapKey "env" env))) ≠ [] →
      assemblerCore [] tools metadata source build config entrypoint env
          repoUrl branch analysis
        = .error (.missingFields (missingRequired (mergedDoc tools md
            (fixSourceDict s repoUrl branch)
            (fixBuildSection (unwrapKey "build" build) analysis)
            (asmRunSection (unwrapKey "config" config) (unwrapKey "entrypoint" entrypoint)
              (unwrapKey "env" env))))))
    ∧ (missingRequired (mergedDoc tools md (fixSourceDict s repoUrl branch)
          (fixBuildSection (unwrapKey "build" build) analysis)
          (asmRunSection (unwrapKey "config" config) (unwrapKey "entrypoint" entrypoint)
            (unwrapKey "env" env))) = [] →
        10 ≤ (pyStrip (yamlDump (.dict (mergedDoc tools md (fixSourceDict s repoUrl branch)
          (fixBuildSection (unwrapKey "build" build) analysis)
          (asmRunSection (unwrapKey "config" config) (unwrapKey "entrypoint" entrypoint)
            (unwrapKey "env" env)))))).length →
      assemblerCore [] tools metadata source build config entrypoint env
          repoUrl branch analysis
        = .ok { assembled := mergedDoc tools md (fixSourceDict s repoUrl branch)
                  (fixBuildSection (unwrapKey "build" build) analysis)
                  (asmRunSection (unwrapKey "config" config)
                    (unwrapKey "entrypoint" entrypoint) (unwrapKey "env" env)),
                assembled_yaml := yamlDump (.dict (mergedDoc tools md
                  (fixSourceDict s repoUrl branch)
                  (fixBuildSection (unwrapKey "build" build) analysis)
                  (asmRunSection (unwrapKey "config" config)
                    (unwrapKey "entrypoint" entrypoint) (unwrapKey "env" env)))) })
    ∧ (∀ errs : List String, errs ≠ [] →
        assemblerCore errs tools metadata source build config entrypoint env
          repoUrl branch analysis = .error (.priorErrors errs))
    ∧ (∀ src' : Val, (∀ s' : PyDict, unwrapKey "source" src' ≠ .dict s') →
        assemblerCore [] tools metadata src' build config entrypoint env
          repoUrl branch analysis = .error .sourceInvalid)
    ∧ (∀ md' : Val, (∀ m' : PyDict, md' ≠ .dict m') →
        assemblerCore [] tools md' source build config entrypoint env
          repoUrl branch analysis = .error .metadataNotMapping) := by
  refine ⟨?_, ?_, ?_, ?_, ?_⟩
  · intro hne
    simp only [assemblerCore, ne_eq, not_true_eq_false, if_false, hs, hmd]
    cases hmr : missingRequired (mergedDoc tools md (fixSourceDict s repoUrl branch)
        (fixBuildSection (unwrapKey "build" build) analysis)
        (asmRunSection (unwrapKey "config" config) (unwrapKey "entrypoint" entrypoint)
          (unwrapKey "env" env))) with
    | nil => exact absurd hmr hne
    | cons f fs => rfl
  · intro hmr hlen
    simp only [assemblerCore, ne_eq, not_true_eq_false, if_false, hs, hmd, hmr]
    have hne : yamlDump (.dict (mergedDoc tools md (fixSourceDict s repoUrl branch)
        (fixBuildSection (unwrapKey "build" build) analysis)
        (asmRunSection (unwrapKey "config" config) (unwrapKey "entrypoint" entrypoint)
          (unwrapKey "env" env)))) ≠ "" := by
      intro h0
      rw [h0] at hlen
      simp [pyStrip] at hlen
    rw [if_neg (by push_neg; exact ⟨hne, by omega⟩)]
    rfl
  · intro errs hne
    simp only [assemblerCore, ne_eq, hne, not_false_eq_true, if_true]
    rfl
  · intro src' hsrc'
    simp only [assemblerCore, ne_eq, not_true_eq_false, if_false]
    cases hu : unwrapKey "source" src' with
    | dict s' => exact absurd hu (hsrc' s')
    | none => rfl
    | bool b => rfl
    | int n => rfl
    | str s2 => rfl
    | list xs => rfl
  · intro md' hmd'
    simp only [assemblerCore, ne_eq, not_true_eq_false, if_false, hs]
    cases hm2 : md' with
    | dict m' => exact absurd hm2 (hmd' m')
    | none => rfl
    | bool b => rfl
    | int n => rfl
    | str s2 => rfl
    | list xs => rfl

/-- Witness for the amended C5: complete metadata, dict source, and the
assembled document returned. -/
theorem C5_witness :
    assemblerCore [] [] (.dict c5metadata) (.dict []) (.dict []) (.dict [])
        (.list []) (.dict []) "u" "b" ""
      = .ok { assembled := mergedDoc [] c5metadata (fixSourceDict [] "u" "b")
                (fixBuildSection (unwrapKey "build" (.dict [])) "")
                (asmRunSection (unwrapKey "config" (.dict []))
                  (unwrapKey "entrypoint" (.list [])) (unwrapKey "env" (.dict []))),
              assembled_yaml := yamlDump (.dict (mergedDoc [] c5metadata
                (fixSourceDict [] "u" "b")
                (fixBuildSection (unwrapKey "build" (.dict [])) "")
                (asmRunSection (unwrapKey "config" (.dict []))
                  (unwrapKey "entrypoint" (.list [])) (unwrapKey "env" (.dict []))))) } :=
  (C5_assembler_required_fields [] (.dict c5metadata) (.dict []) (.dict []) (.dict [])
    (.list []) (.dict []) "u" "b" "" [] c5metadata rfl rfl).2.1 rfl
    (by set_option maxRecDepth 8192 in decide)

/-- **C6.** `extract_yaml_from_response` repairs the three LLM output
shapes: `None` and empty inputs (empty string, empty dict) give the empty
string; a dict is dumped to YAML, recursing into a string `output` entry
when present; and a string containing a complete triple-backtick code fence
yields the stripped content of the first fenced block. -/
theorem C6_extract_yaml_shapes (kvs : PyDict) (hk : kvs ≠ [])
    (s : String) (c : String) (hf : findFence s.data = some c) :
    extract_yaml_from_response .none = ""
    ∧ extract_yaml_from_response (.str "") = ""
    ∧ extract_yaml_from_response (.dict []) = ""
    ∧ extract_yaml_from_response (.dict kvs)
        = (match dget kvs "output" with
           | some (.str so) => if so == "" then "" else extractFromText so
           | _ => yamlDump (.dict kvs))
    ∧ extract_yaml_from_response (.str s) = c := by
  refine ⟨rfl, rfl, rfl, ?_, ?_⟩
  · have ht : pyTruthy (.dict kvs) = true := by
      simp [pyTruthy, hk]
    simp only [extract_yaml_from_response, ht, Bool.not_true, Bool.false_eq_true,
      if_false]
  · have hs : s ≠ "" := by
      intro h0
      subst h0
      simp [findFence] at hf
    have ht : pyTruthy (.str s) = true := by
      simp [pyTruthy, hs]
    simp only [extract_yaml_from_response, ht, Bool.not_true, Bool.false_eq_true,
      if_false, extractFromText, hf]

/-- Witness for C6 on a dict with an `output` entry and on a fenced text. -/
theorem C6_witness :
    extract_yaml_from_response .none = ""
    ∧ extract_yaml_from_response (.str "") = ""
    ∧ extract_yaml_from_response (.dict []) = ""
    ∧ extract_yaml_from_response (.dict [("a", .int 1)])
        = (match dget [("a", Val.int 1)] "output" with
           | some (.str so) => if so == "" then "" else extractFromText so
           | _ => yamlDump (.dict [("a", .int 1)]))
    ∧ extract_yaml_from_response (.str "x\n```yaml\nfoo: 1\n```\nz") = "foo: 1" :=
  C6_extract_yaml_shapes [("a", .int 1)] (by simp)
    "x\n```yaml\nfoo: 1\n```\nz" "foo: 1" rfl

theorem smGet_mem4_run (m : List (String × String)) (a b c d : String) :
    smGet (smSet (smSet (smSet (smSet m "run_yaml" a) "config_yaml" b)
      "entrypoint_yaml" c) "env_yaml" d) "run_yaml" = some a := by
  rw [smGet_smSet_ne _ _ _ _ (by decide), smGet_smSet_ne _ _ _ _ (by decide),
      smGet_smSet_ne _ _ _ _ (by decide)]
  exact smGet_smSet_self _ _ _

theorem smGet_mem4_config (m : List (String × String)) (a b c d : String) :
    smGet (smSet (smSet (smSet (smSet m "run_yaml" a) "config_yaml" b)
      "entrypoint_yaml" c) "env_yaml" d) "config_yaml" = some b := by
  rw [smGet_smSet_ne _ _ _ _ (by decide), smGet_smSet_ne _ _ _ _ (by decide)]
  exact smGet_smSet_self _ _ _

theorem smGet_mem4_entrypoint (m : List (String × String)) (a b c d : String) :
    smGet (smSet (smSet (smSet (smSet m "run_yaml" a) "config_yaml" b)
      "entrypoint_yaml" c) "env_yaml" d) "entrypoint_yaml" = some c := by
  rw [smGet_smSet_ne _ _ _ _ (by decide)]
  exact smGet_smSet_self _ _ _

theorem smGet_mem4_env (m : List (String × String)) (a b c d : String) :
    smGet (smSet (smSet (smSet (smSet m "run_yaml" a) "config_yaml" b)
      "entrypoint_yaml" c) "env_yaml" d) "env_yaml" = some d :=
  smGet_smSet_self _ _ _

/-- **C7.** Stage outputs are threaded through shared memory: whenever a
section node returns without errors, the generated section string(s) are
stored in the matching `MCPState` field, in shared memory under the
`<section>_yaml` key, and returned to the caller — all three the same
string; and `assembler_node` reads exactly the six section keys
`metadata_yaml`, `source_yaml`, `build_yaml`, `config_yaml`,
`entrypoint_yaml`, `env_yaml` to build the merged document. -/
theorem C7_stage_threading :
    (∀ (sl : String → Option Val) (st : MCPState) (call : Except String Val)
        (kvs : List (String × String)),
      (metadataNode sl st call).2 = .ok kvs →
      kvs.map Prod.fst = ["metadata_yaml"]
      ∧ (metadataNode sl st call).1.metadata = smGet kvs "metadata_yaml"
      ∧ smGet (metadataNode sl st call).1.mem "metadata_yaml" = smGet kvs "metadata_yaml")
    ∧ (∀ (sl : String → Option Val) (ru br : String) (st : MCPState)
        (call : Except String Val) (kvs : List (String × String)),
      (sourceNode sl ru br st call).2 = .ok kvs →
      kvs.map Prod.fst = ["source_yaml"]
      ∧ (sourceNode sl ru br st call).1.source = smGet kvs "source_yaml"
      ∧ smGet (sourceNode sl ru br st call).1.mem "source_yaml" = smGet kvs "source_yaml")
    ∧ (∀ (sl : String → Option Val) (st : MCPState) (call : Except String Val)
        (kvs : List (String × String)),
      (buildNode sl st call).2 = .ok kvs →
      kvs.map Prod.fst = ["build_yaml"]
      ∧ (buildNode sl st call).1.build = smGet kvs "build_yaml"
      ∧ smGet (buildNode sl st call).1.mem "build_yaml" = smGet kvs "build_yaml")
    ∧ (∀ (sl : String → Option Val) (st : MCPState) (call : Except String AgentResp)
        (kvs : List (String × String)),
      (runNodeSt sl st call).2 = .ok kvs →
      kvs.map Prod.fst = ["config_yaml", "entrypoint_yaml", "env_yaml", "run_yaml"]
      ∧ (runNodeSt sl st call).1.run = smGet kvs "run_yaml"
      ∧ (runNodeSt sl st call).1.config = smGet kvs "config_yaml"
      ∧ (runNodeSt sl st call).1.entrypoint = smGet kvs "entrypoint_yaml"
      ∧ (runNodeSt sl st call).1.env = smGet kvs "env_yaml"
      ∧ smGet (runNodeSt sl st call).1.mem "run_yaml" = smGet kvs "run_yaml"
      ∧ smGet (runNodeSt sl st call).1.mem "config_yaml" = smGet kvs "config_yaml"
      ∧ smGet (runNodeSt sl st call).1.mem "entrypoint_yaml" = smGet kvs "entrypoint_yaml"
      ∧ smGet (runNodeSt sl st call).1.mem "env_yaml" = smGet kvs "env_yaml")
    ∧ (∀ (errors : List String) (tools : List Val) (mem : List (String × String))
        (sl : String → Option Val) (ru br an : String),
      (assemblerNodeMem errors tools mem sl ru br an).2 = assemblerReadKeys errors
      ∧ assemblerReadKeys []
          = ["metadata_yaml", "source_yaml", "build_yaml",
             "config_yaml", "entrypoint_yaml", "env_yaml"]) := by
  refine ⟨?_, ?_, ?_, ?_, ?_⟩
  · intro sl st call kvs h
    cases call with
    | error e => simp [metadataNode] at h
    | ok resp =>
        simp only [metadataNode, NodeRet.ok.injEq] at h
        subst h
        exact ⟨rfl, rfl, smGet_smSet_self st.mem _ _⟩
  · intro sl ru br st call kvs h
    by_cases hru : ru = ""
    · simp [sourceNode, hru] at h
    · cases call with
      | error e => simp [sourceNode, hru] at h
      | ok resp =>
          simp only [sourceNode, hru, if_false, NodeRet.ok.injEq] at h
          subst h
          refine ⟨rfl, ?_, ?_⟩
          · show (sourceNode sl ru br st (.ok resp)).1.source = _
            simp only [sourceNode, hru, if_false]
            rfl
          · show smGet (sourceNode sl ru br st (.ok resp)).1.mem "source_yaml" = _
            simp only [sourceNode, hru, if_false]
            exact smGet_smSet_self st.mem _ _
  · intro sl st call kvs h
    cases call with
    | error e => simp [buildNode] at h
    | ok resp =>
        simp only [buildNode] at h ⊢
        cases hc : buildContent sl resp with
        | error m =>
            rw [hc] at h
            have h2 : NodeRet.errs m = NodeRet.ok kvs := h
            cases h2
        | ok content =>
            rw [hc] at h
            have h2 : NodeRet.ok [("build_yaml", content)] = NodeRet.ok kvs := h
            injection h2 with h3
            subst h3
            exact ⟨rfl, rfl, smGet_smSet_self st.mem _ _⟩
  · intro sl st call kvs h
    cases call with
    | error e => simp [runNodeSt] at h
    | ok resp =>
        simp only [runNodeSt] at h ⊢
        cases hr : runNode sl resp with
        | error m =>
            rw [hr] at h
            have h2 : NodeRet.errs m = NodeRet.ok kvs := h
            cases h2
        | ok out =>
            rw [hr] at h
            have h2 : NodeRet.ok
                [("config_yaml", out.config_yaml), ("entrypoint_yaml", out.entrypoint_yaml),
                 ("env_yaml", out.env_yaml), ("run_yaml", out.run_yaml)]
                = NodeRet.ok kvs := h
            injection h2 with h3
            subst h3
            exact ⟨rfl, rfl, rfl, rfl, rfl,
              smGet_mem4_run st.mem _ _ _ _, smGet_mem4_config st.mem _ _ _ _,
              smGet_mem4_entrypoint st.mem _ _ _ _, smGet_mem4_env st.mem _ _ _ _⟩
  · intro errors tools mem sl ru br an
    exact ⟨rfl, rfl⟩

def c7kvs : List (String × String) :=
  match (metadataNode (fun _ => Option.none) {} (.ok (.dict [("a", .int 1)]))).2 with
  | .ok k => k
  | .errs _ => []

/-- Witness for C7: the metadata node at a concrete dict response stores
and returns the same string under `metadata_yaml`, and the assembler reads
the six section keys. -/
theorem C7_witness :
    (c7kvs.map Prod.fst = ["metadata_yaml"]
      ∧ (metadataNode (fun _ => Option.none) {} (.ok (.dict [("a", .int 1)]))).1.metadata
          = smGet c7kvs "metadata_yaml"
      ∧ smGet (metadataNode (fun _ => Option.none) {}
            (.ok (.dict [("a", .int 1)]))).1.mem "metadata_yaml"
          = smGet c7kvs "metadata_yaml")
    ∧ assemblerReadKeys []
        = ["metadata_yaml", "source_yaml", "build_yaml",
           "config_yaml", "entrypoint_yaml", "env_yaml"] :=
  ⟨C7_stage_threading.1 (fun _ => Option.none) {} (.ok (.dict [("a", .int 1)])) c7kvs rfl,
   (C7_stage_threading.2.2.2.2 [] [] [] (fun _ => Option.none) "" "" "").2⟩

theorem assemblerCore_ne_priorErrors (tools : List Val)
    (metadata source build config entrypoint env : Val)
    (repoUrl branch analysis : String) (l : List String) :
    assemblerCore [] tools metadata source build config entrypoint env
      repoUrl branch analysis ≠ .error (.priorErrors l) := by
  intro h
  unfold assemblerCore at h
  rw [if_neg (by simp)] at h
  repeat' first
    | split at h
    | dsimp only at h
  all_goals first
    | exact AsmErr.noConfusion (Except.error.inj h)
    | exact Except.noConfusion h

theorem assemblerNodeRes_priorErrors (errors : List String) (tools : List Val)
    (mem : List (String × String)) (sl : String → Option Val)
    (ru br an : String) (l : List String)
    (h : assemblerNodeRes errors tools mem sl ru br an = .error (.priorErrors l)) :
    l = errors ∧ errors ≠ [] := by
  by_cases he : errors ≠ []
  · unfold assemblerNodeRes at h
    rw [if_pos he] at h
    exact ⟨(AsmErr.priorErrors.inj (Except.error.inj h)).symm, he⟩
  · exfalso
    push_neg at he
    subst he
    unfold assemblerNodeRes at h
    rw [if_neg (by simp)] at h
    repeat' first
      | split at h
      | dsimp only at h
    all_goals first
      | exact assemblerCore_ne_priorErrors _ _ _ _ _ _ _ _ _ _ _ h
      | exact AsmErr.noConfusion (Except.error.inj h)

theorem asmErrMsgs_ne_nil (errors : List String) (tools : List Val)
    (mem : List (String × String)) (sl : String → Option Val)
    (ru br an : String) (err : AsmErr)
    (h : (assemblerNodeMem errors tools mem sl ru br an).1 = .error err)
    (he : errors = []) : asmErrMsgs err ≠ [] := by
  cases err with
  | priorErrors l =>
      have := assemblerNodeRes_priorErrors errors tools mem sl ru br an l h
      exact absurd he this.2
  | sourceInvalid => simp [asmErrMsgs]
  | metadataNotMapping => simp [asmErrMsgs]
  | missingFields fs => simp [asmErrMsgs]
  | emptyYaml => simp [asmErrMsgs]

theorem metadataNode_ok_errors (sl : String → Option Val) (st : MCPState)
    (call : Except String Val) (kvs : List (String × String))
    (h : (metadataNode sl st call).2 = .ok kvs) :
    (metadataNode sl st call).1.errors = st.errors := by
  cases call with
  | error e => exact absurd h (by simp [metadataNode])
  | ok resp => rfl

theorem sourceNode_ok_errors (sl : String → Option Val) (ru br : String)
    (st : MCPState) (call : Except String Val) (kvs : List (String × String))
    (h : (sourceNode sl ru br st call).2 = .ok kvs) :
    (sourceNode sl ru br st call).1.errors = st.errors := by
  by_cases hru : ru = ""
  · exact absurd h (by simp [sourceNode, hru])
  · cases call with
    | error e => exact absurd h (by simp [sourceNode, hru])
    | ok resp =>
        simp only [sourceNode, hru, if_false]

theorem buildNode_ok_errors (sl : String → Option Val) (st : MCPState)
    (call : Except String Val) (kvs : List (String × String))
    (h : (buildNode sl st call).2 = .ok kvs) :
    (buildNode sl st call).1.errors = st.errors := by
  cases call with
  | error e => exact absurd h (by simp [buildNode])
  | ok resp =>
      simp only [buildNode] at h ⊢
      cases hc : buildContent sl resp with
      | error m =>
          rw [hc] at h
          exact absurd (show NodeRet.errs m = NodeRet.ok kvs from h) (by simp)
      | ok content => rfl

theorem runNodeSt_ok_errors (sl : String → Option Val) (st : MCPState)
    (call : Except String AgentResp) (kvs : List (String × String))
    (h : (runNodeSt sl st call).2 = .ok kvs) :
    (runNodeSt sl st call).1.errors = st.errors := by
  cases call with
  | error e => exact absurd h (by simp [runNodeSt])
  | ok resp =>
      simp only [runNodeSt] at h ⊢
      cases hr : runNode sl resp with
      | error m =>
          rw [hr] at h
          exact absurd (show NodeRet.errs m = NodeRet.ok kvs from h) (by simp)
      | ok out => rfl

/-- **C8.** `process_mcp_server` is all-or-nothing at its interface: every
execution returns either a non-empty YAML with an empty error list or an
empty YAML with a non-empty error list — never both YAML and errors, never
neither — and the returned name is always the server name lowercased with
spaces replaced by hyphens. -/
theorem C8_all_or_nothing (a : ProcArgs) :
    (process_mcp_server a).name = safeName a.serverName
    ∧ ((process_mcp_server a).yaml ≠ "" ∧ (process_mcp_server a).errors = []
       ∨ (process_mcp_server a).yaml = "" ∧ (process_mcp_server a).errors ≠ []) := by
  unfold process_mcp_server
  cases a.clone with
  | fail e => exact ⟨rfl, Or.inr ⟨rfl, by simp⟩⟩
  | ok branch =>
    dsimp only
    cases h1 : (metadataNode a.safeLoad {} a.metadataCall).2 with
    | errs m => exact ⟨rfl, Or.inr ⟨rfl, by simp⟩⟩
    | ok kvs1 =>
      dsimp only
      cases h2 : (sourceNode a.safeLoad a.repoUrl branch
          (metadataNode a.safeLoad {} a.metadataCall).1 a.sourceCall).2 with
      | errs m => exact ⟨rfl, Or.inr ⟨rfl, by simp⟩⟩
      | ok kvs2 =>
        dsimp only
        cases h3 : (buildNode a.safeLoad (sourceNode a.safeLoad a.repoUrl branch
            (metadataNode a.safeLoad {} a.metadataCall).1 a.sourceCall).1
            a.buildCall).2 with
        | errs m => exact ⟨rfl, Or.inr ⟨rfl, by simp⟩⟩
        | ok kvs3 =>
          dsimp only
          cases h4 : (runNodeSt a.safeLoad (buildNode a.safeLoad
              (sourceNode a.safeLoad a.repoUrl branch
                (metadataNode a.safeLoad {} a.metadataCall).1 a.sourceCall).1
              a.buildCall).1 a.runCall).2 with
          | errs m => exact ⟨rfl, Or.inr ⟨rfl, by simp⟩⟩
          | ok kvs4 =>
            have herr : (runNodeSt a.safeLoad (buildNode a.safeLoad
                (sourceNode a.safeLoad a.repoUrl branch
                  (metadataNode a.safeLoad {} a.metadataCall).1 a.sourceCall).1
                a.buildCall).1 a.runCall).1.errors = [] := by
              rw [runNodeSt_ok_errors _ _ _ _ h4, buildNode_ok_errors _ _ _ _ h3,
                  sourceNode_ok_errors _ _ _ _ _ _ h2,
                  metadataNode_ok_errors _ _ _ _ h1]
            dsimp only
            repeat' split
            all_goals first
              | (refine ⟨rfl, Or.inr ⟨rfl, ?_⟩⟩
                 simp
                 done)
              | (rename_i heqAsm
                 refine ⟨rfl, Or.inr ⟨rfl, asmErrMsgs_ne_nil _ _ _ _ _ _ _ _ heqAsm ?_⟩⟩
                 repeat' split
                 all_goals ((try dsimp only); exact herr))
              | (refine ⟨rfl, Or.inl ⟨?_, rfl⟩⟩
                 assumption)

/-!
## C9 / C10: secret inference and the run-section postcondition
-/

theorem coerceDefault_preserves (q : PyDict) (k' : String) (h : k' ≠ "default") :
    dget (coerceDefault q) k' = dget q k' := by
  unfold coerceDefault
  split
  · rfl
  · exact dget_dset_ne _ _ _ _ (Ne.symm h)
  · rfl

theorem dget_ensure_ne (p : PyDict) (k k' : String) (v : Val) (h : k ≠ k') :
    dget (if dhas p k then p else dset p k v) k' = dget p k' := by
  split
  · rfl
  · exact dget_dset_ne _ _ _ _ h

theorem dhas_ensure_ne (p : PyDict) (k k' : String) (v : Val) (h : k ≠ k') :
    dhas (if dhas p k then p else dset p k v) k' = dhas p k' := by
  split
  · rfl
  · exact dhas_dset_ne _ _ _ _ h

/-- In the `RunResponse` branch every dict env property lacking `secret`
receives the inferred flag. -/
theorem fixRREnvProp_secret (k : String) (p : PyDict)
    (hp : dhas p "secret" = false) :
    dget (fixRREnvProp k p) "secret" = some (.bool (isSecretKey k)) := by
  unfold fixRREnvProp
  have h1 : dhas (if dhas p "type" then p else dset p "type" (.str "string"))
      "secret" = false := by
    rw [dhas_ensure_ne _ _ _ _ (by decide)]
    exact hp
  have h2 : dhas (if dhas (if dhas p "type" then p else dset p "type" (.str "string"))
        "required"
      then (if dhas p "type" then p else dset p "type" (.str "string"))
      else dset (if dhas p "type" then p else dset p "type" (.str "string"))
        "required" (.bool false)) "secret" = false := by
    rw [dhas_ensure_ne _ _ _ _ (by decide)]
    exact h1
  rw [coerceDefault_preserves _ _ (by decide)]
  rw [if_neg (by simp [h2])]
  exact dget_dset_self _ _ _

/-- The secret field of a coerced property value, when the result is a dict. -/
def propSecret : Val → Option Val
  | .dict q => dget q "secret"
  | _ => Option.none

def c9resp : AgentResp :=
  .val (.dict [("run", .dict [("config", .dict []), ("entrypoint", .list [.str "x"]),
    ("env", .dict [("API_KEY", .dict [("type", .str "string")])])])])

/-- **C9, counterexample.** `run_node` succeeds on a dict response whose env
property `API_KEY` is already in Property format (`type` present) but lacks
`secret`: the output property still has no `secret` field, although the key
matches the credential-suffix heuristic — the inference is not applied to
every env property lacking `secret`. -/
theorem C9_counterexample :
    (runNode (fun _ => Option.none) c9resp).map (fun out => dget out.run_section "env")
      = .ok (some (.dict [("API_KEY", .dict [("type", .str "string")])]))
    ∧ coerceEnvProp "API_KEY" (.dict [("type", .str "string")])
        = .dict [("type", .str "string")]
    ∧ isSecretKey "API_KEY" = true :=
  ⟨rfl, rfl, rfl⟩

/-- **C9, amended.** The secret-name inference `key.upper().endswith(_KEY /
_SECRET / _TOKEN / _PASSWORD)` is applied exactly where the coercions
assign it: in the `RunResponse` branch of `run_node` every dict env
property lacking `secret` receives the flag (and an existing `secret` is
kept); in the generic env coercion shared by `run_node` and
`assembler_node`, string-valued properties and dict properties lacking
`type` receive it when missing, while integer-like scalars get no `secret`
field and dicts already containing `type` are left entirely unchanged. -/
theorem C9_secret_inference (k : String) (p : PyDict) (s : String) (n : Int)
    (hp : dhas p "secret" = false) (ht : dhas p "type" = false) :
    dget (fixRREnvProp k p) "secret" = some (.bool (isSecretKey k))
    ∧ (∀ q : PyDict, dhas q "secret" = true →
        dget (fixRREnvProp k q) "secret" = dget q "secret")
    ∧ propSecret (coerceEnvProp k (.str s)) = some (.bool (isSecretKey k))
    ∧ propSecret (coerceEnvProp k (.dict p)) = some (.bool (isSecretKey k))
    ∧ propSecret (coerceEnvProp k (.int n)) = Option.none
    ∧ (∀ q : PyDict, dhas q "type" = true → coerceEnvProp k (.dict q) = .dict q) := by
  refine ⟨fixRREnvProp_secret k p hp, ?_, ?_, ?_, ?_, ?_⟩
  · intro q hq
    unfold fixRREnvProp
    rw [coerceDefault_preserves _ _ (by decide)]
    rw [if_pos (by
      rw [dhas_ensure_ne _ _ _ _ (by decide), dhas_ensure_ne _ _ _ _ (by decide)]
      exact hq)]
    rw [dget_ensure_ne _ _ _ _ (by decide), dget_ensure_ne _ _ _ _ (by decide)]
  · rfl
  · simp only [coerceEnvProp]
    rw [if_neg (by simp [ht])]
    simp only [propSecret]
    rw [if_neg (by
      rw [dhas_ensure_ne _ _ _ _ (by decide), dhas_dset_ne _ _ _ _ (by decide)]
      simp [hp])]
    exact dget_dset_self _ _ _
  · rfl
  · intro q hq
    simp only [coerceEnvProp]
    rw [if_pos (by simp [hq])]

/-- Witness for the amended C9 at a credential-suffixed key. -/
theorem C9_witness :
    dget (fixRREnvProp "MY_TOKEN" [("label", .str "x")]) "secret"
        = some (.bool (isSecretKey "MY_TOKEN"))
    ∧ (∀ q : PyDict, dhas q "secret" = true →
        dget (fixRREnvProp "MY_TOKEN" q) "secret" = dget q "secret")
    ∧ propSecret (coerceEnvProp "MY_TOKEN" (.str "v"))
        = some (.bool (isSecretKey "MY_TOKEN"))
    ∧ propSecret (coerceEnvProp "MY_TOKEN" (.dict [("label", .str "x")]))
        = some (.bool (isSecretKey "MY_TOKEN"))
    ∧ propSecret (coerceEnvProp "MY_TOKEN" (.int 3)) = Option.none
    ∧ (∀ q : PyDict, dhas q "type" = true →
        coerceEnvProp "MY_TOKEN" (.dict q) = .dict q) :=
  C9_secret_inference "MY_TOKEN" [("label", .str "x")] "v" 3 rfl rfl

/-! ### C10 — run_node postcondition on the run-section schema -/

/-- A property value in the strict schema: a dict carrying a `"type"` key. -/
def isTypedProp : Val → Bool
  | .dict q => dhas q "type"
  | _ => false

/-- Every property value of the map is a dict carrying `"type"`. -/
def propsTyped (m : PyDict) : Prop := ∀ kv ∈ m, isTypedProp kv.2 = true

theorem coerceConfigPropRun_typed (k : String) (v : Val) :
    isTypedProp (coerceConfigPropRun k v) = true := by
  cases v with
  | dict p =>
      by_cases h : dhas p "type" = true
      · simp [coerceConfigPropRun, isTypedProp, h]
      · simp only [coerceConfigPropRun]
        rw [if_neg h]
        simp only [isTypedProp]
        rw [dhas_ensure_ne _ _ _ _ (by decide), dhas_ensure_ne _ _ _ _ (by decide)]
        exact dhas_dset_self _ _ _
  | str s => rfl
  | int n => rfl
  | bool b => rfl
  | none => rfl
  | list xs => rfl

theorem coerceEnvProp_typed (k : String) (v : Val) :
    isTypedProp (coerceEnvProp k v) = true := by
  cases v with
  | dict p =>
      by_cases h : dhas p "type" = true
      · simp [coerceEnvProp, isTypedProp, h]
      · simp only [coerceEnvProp]
        rw [if_neg h]
        simp only [isTypedProp]
        rw [dhas_ensure_ne _ _ _ _ (by decide), dhas_ensure_ne _ _ _ _ (by decide)]
        exact dhas_dset_self _ _ _
  | str s => rfl
  | int n => rfl
  | bool b => rfl
  | none => rfl
  | list xs => rfl

/-- A run response whose `config` property `p` already carries `"type"` and
nothing else. -/
def c10resp : AgentResp := .val (.dict [("run", .dict
  [("config", .dict [("p", .dict [("type", .str "string")])]),
   ("entrypoint", .list [.str "x"]),
   ("env", .dict [])])])

/-- C10 (counterexample to the stated postcondition): `run_node` succeeds on
`c10resp`, yet the property `p` of the resulting `config` map is exactly
`\x7b"type": "string"\x7d`, which carries no `"required"` key — dict
properties that already contain `"type"` are passed through unchanged, so
the claimed guarantee that every property dict contains both `"type"` and
`"required"` fails. -/
theorem C10_counterexample :
    (runNode (fun _ => Option.none) c10resp).map
        (fun out => dget out.run_section "config")
      = .ok (some (.dict [("p", .dict [("type", .str "string")])]))
    ∧ dhas [("type", Val.str "string")] "required" = false := ⟨rfl, rfl⟩

/-- C10 (amended): whenever `run_node` returns without error, in the
resulting run section `config` and `env` are dicts in which every property
value is a dict containing a `"type"` key, and `entrypoint` is a list.  (The
original claim's additional `"required"` guarantee holds only for properties
that did not already arrive as dicts carrying `"type"`.) -/
theorem C10_run_postcondition (sl : String → Option Val) (resp : AgentResp)
    (out : RunOut) (h : runNode sl resp = Except.ok out) :
    (∃ cfg, dget out.run_section "config" = some (.dict cfg) ∧ propsTyped cfg)
    ∧ (∃ ep, dget out.run_section "entrypoint" = some (.list ep))
    ∧ (∃ env, dget out.run_section "env" = some (.dict env) ∧ propsTyped env) := by
  unfold runNode at h
  cases hrs : extractRunSection sl resp with
  | error e => rw [hrs] at h; exact Except.noConfusion h
  | ok rs =>
    rw [hrs] at h
    have h2 : runNodeTail rs = Except.ok out := h
    clear h hrs
    cases rs with
    | none => exact Except.noConfusion h2
    | bool b => exact Except.noConfusion h2
    | int n => exact Except.noConfusion h2
    | str s => exact Except.noConfusion h2
    | list xs => exact Except.noConfusion h2
    | dict d₀ =>
      unfold runNodeTail at h2
      dsimp only at h2
      cases hcfg : dget (normStep (normStep d₀ "config") "env") "config" with
      | none => rw [hcfg] at h2; exact Except.noConfusion h2
      | some cfgv =>
        rw [hcfg] at h2
        cases cfgv with
        | none => exact Except.noConfusion h2
        | bool b => exact Except.noConfusion h2
        | int n => exact Except.noConfusion h2
        | str s => exact Except.noConfusion h2
        | list xs => exact Except.noConfusion h2
        | dict cfg =>
          cases hep : dget (normStep (normStep d₀ "config") "env") "entrypoint" with
          | none => rw [hep] at h2; exact Except.noConfusion h2
          | some epv =>
            rw [hep] at h2
            cases epv with
            | none => exact Except.noConfusion h2
            | bool b => exact Except.noConfusion h2
            | int n => exact Except.noConfusion h2
            | str s => exact Except.noConfusion h2
            | dict q => exact Except.noConfusion h2
            | list ep =>
              cases henv : dget (normStep (normStep d₀ "config") "env") "env" with
              | none => rw [henv] at h2; exact Except.noConfusion h2
              | some envv =>
                rw [henv] at h2
                cases envv with
                | none => exact Except.noConfusion h2
                | bool b => exact Except.noConfusion h2
                | int n => exact Except.noConfusion h2
                | str s => exact Except.noConfusion h2
                | list xs => exact Except.noConfusion h2
                | dict env =>
                  have h3 := Except.ok.inj h2
                  subst h3
                  dsimp only
                  refine ⟨⟨mapVals coerceConfigPropRun cfg, ?_, ?_⟩,
                          ⟨ep, ?_⟩,
                          ⟨mapVals coerceEnvProp env, ?_, ?_⟩⟩
                  · rw [dget_dset_ne _ _ _ _ (by decide)]
                    exact dget_dset_self _ _ _
                  · intro kv hkv
                    obtain ⟨kv0, hk0, hmap⟩ := List.mem_map.1 hkv
                    subst hmap
                    exact coerceConfigPropRun_typed kv0.1 kv0.2
                  · rw [dget_dset_ne _ _ _ _ (by decide),
                        dget_dset_ne _ _ _ _ (by decide)]
                    exact hep
                  · exact dget_dset_self _ _ _
                  · intro kv hkv
                    obtain ⟨kv0, hk0, hmap⟩ := List.mem_map.1 hkv
                    subst hmap
                    exact coerceEnvProp_typed kv0.1 kv0.2

/-- The successful output of `run_node` on `c10resp`. -/
def c10out : RunOut :=
  match runNode (fun _ => Option.none) c10resp with
  | .ok o => o
  | .error _ => { run_section := [], run_yaml := "", config_yaml := "",
                  entrypoint_yaml := "", env_yaml := "" }

/-- Witness for the amended C10 on the concrete successful run `c10resp`. -/
theorem C10_witness :
    (∃ cfg, dget c10out.run_section "config" = some (.dict cfg) ∧ propsTyped cfg)
    ∧ (∃ ep, dget c10out.run_section "entrypoint" = some (.list ep))
    ∧ (∃ env, dget c10out.run_section "env" = some (.dict env) ∧ propsTyped env) :=
  C10_run_postcondition (fun _ => Option.none) c10resp c10out rfl
